import Mathlib

/-!
Verification of the ACP protocol core of the `acptorio` repository.

The definitions below are a shallow embedding of the Rust sources:
  * `src-tauri/src/acp/protocol.rs`  — JSON-RPC message model and the
    classification deserializer;
  * `src-tauri/src/acp/messages.rs`  — typed ACP payload schemas and their
    serde parsing/serialization behaviour;
  * `src-tauri/src/agent/message_processor.rs` — the pure update interpreter;
  * `src-tauri/src/agent/process.rs` — the prompt read loop, the permission
    handshake and the pending-input bookkeeping of `AgentProcess`;
  * `src-tauri/src/agent/pool.rs`    — the pending-permissions table.

JSON values are modelled as a tree (`Json`) with integer numerals (every
numeric field of the protocol is an integer: request ids are `i64`, error
codes `i32`, positions `u32`; overflow is irrelevant to the verified
properties, so plain `Int`/`Nat` are used).  Objects are association lists;
the Rust code goes through `serde_json::Value` maps, whose keys are unique,
and all lookups below are first-match, which agrees with map lookup on that
domain.  Serialization is modelled as producing a `Json` tree (the textual
layer is injective on trees and adds nothing to the verified properties).
Wall-clock timestamps (`SystemTime::now`) are passed in as an explicit
parameter `ts`, and `Uuid::new_v4` (used only for legacy pending inputs
without a `toolUseId`) is modelled as an opaque fresh identifier.
-/

namespace Acptorio

/-- A JSON value: the model of `serde_json::Value` used throughout. -/
inductive Json where
  | null
  | bool (b : Bool)
  | num  (n : Int)
  | str  (s : String)
  | arr  (elems : List Json)
  | obj  (members : List (String × Json))

/-- Whether a value is the JSON `null` (the model of `Value::is_null`). -/
def Json.isNull : Json → Bool
  | .null => true
  | _ => false

/-- First-match lookup of a key in an object's member list (the model of
`Map::get` on a `serde_json` object, whose keys are unique). -/
def jlookup (members : List (String × Json)) (k : String) : Option Json :=
  match members with
  | [] => none
  | (k', v) :: rest => if k' = k then some v else jlookup rest k

/-- Whether an object has a member with the given key (`Map::contains_key`). -/
def jhasKey (members : List (String × Json)) (k : String) : Bool :=
  (jlookup members k).isSome

/-- Serde: extract a required `String` field from an object. -/
def getReqString (members : List (String × Json)) (k : String) : Except String String :=
  match jlookup members k with
  | some (.str s) => .ok s
  | some _ => .error ("invalid type for field " ++ k)
  | none => .error ("missing field " ++ k)

/-- Serde: extract a required integer field (`i64`/`i32`) from an object. -/
def getReqInt (members : List (String × Json)) (k : String) : Except String Int :=
  match jlookup members k with
  | some (.num n) => .ok n
  | some _ => .error ("invalid type for field " ++ k)
  | none => .error ("missing field " ++ k)

/-- Serde: an `Option<Value>` field — absent or `null` becomes `none`. -/
def getOptJson (members : List (String × Json)) (k : String) : Option Json :=
  match jlookup members k with
  | none => none
  | some v => if v.isNull then none else some v

/-- Serde: an `Option<String>` field — absent or `null` is `none`, a string
parses, anything else is a type error. -/
def getOptString (members : List (String × Json)) (k : String) :
    Except String (Option String) :=
  match jlookup members k with
  | none => .ok none
  | some .null => .ok none
  | some (.str s) => .ok (some s)
  | some _ => .error ("invalid type for field " ++ k)

/-- Serde: an `Option<Int>` field (for example the `i64` id of a response). -/
def getOptInt (members : List (String × Json)) (k : String) :
    Except String (Option Int) :=
  match jlookup members k with
  | none => .ok none
  | some .null => .ok none
  | some (.num n) => .ok (some n)
  | some _ => .error ("invalid type for field " ++ k)

/-! ## JSON-RPC message model (`acp/protocol.rs`) -/

/-- `JsonRpcRequest` of `protocol.rs`: a non-null `i64` id and a method. -/
structure JsonRpcRequest where
  jsonrpc : String
  id : Int
  method : String
  params : Option Json

/-- `JsonRpcError` of `protocol.rs`. -/
structure JsonRpcError where
  code : Int
  message : String
  data : Option Json

/-- `JsonRpcResponse` of `protocol.rs`: optional id, optional result/error. -/
structure JsonRpcResponse where
  jsonrpc : String
  id : Option Int
  result : Option Json
  error : Option JsonRpcError

/-- `JsonRpcNotification` of `protocol.rs`: a method and no id. -/
structure JsonRpcNotification where
  jsonrpc : String
  method : String
  params : Option Json

/-- The tagged union `JsonRpcMessage` of `protocol.rs`. -/
inductive JsonRpcMessage where
  | Request (r : JsonRpcRequest)
  | Response (r : JsonRpcResponse)
  | Notification (n : JsonRpcNotification)

/-- The three classification outcomes of the dispatch in
`JsonRpcMessage::deserialize`. -/
inductive MsgClass where
  | request
  | notification
  | response
deriving DecidableEq

/-- Whether the object has a `method` member (line 105 of `protocol.rs`). -/
def hasMethodField (members : List (String × Json)) : Bool :=
  jhasKey members "method"

/-- Whether the object has an `id` member that is present and non-null
(line 110 of `protocol.rs`). -/
def hasNonNullId (members : List (String × Json)) : Bool :=
  match jlookup members "id" with
  | some v => !v.isNull
  | none => false

/-- The four-step classification dispatch of `JsonRpcMessage::deserialize`
(`protocol.rs` lines 105-131): `none` is the `UnrecognizedMessage` failure. -/
def classifyObj (members : List (String × Json)) : Option MsgClass :=
  if hasMethodField members && hasNonNullId members then some .request
  else if hasMethodField members then some .notification
  else if hasNonNullId members || jhasKey members "result" || jhasKey members "error" then
    some .response
  else none

/-- Serde derive for `JsonRpcRequest` (`from_value` on the buffered value). -/
def parseRequest (v : Json) : Except String JsonRpcRequest :=
  match v with
  | .obj members => do
    let jsonrpc ← getReqString members "jsonrpc"
    let id ← getReqInt members "id"
    let method ← getReqString members "method"
    .ok ⟨jsonrpc, id, method, getOptJson members "params"⟩
  | _ => .error "invalid type: JsonRpcRequest expects an object"

/-- Serde derive for `JsonRpcError`. -/
def parseError (v : Json) : Except String JsonRpcError :=
  match v with
  | .obj members => do
    let code ← getReqInt members "code"
    let message ← getReqString members "message"
    .ok ⟨code, message, getOptJson members "data"⟩
  | _ => .error "invalid type: JsonRpcError expects an object"

/-- Serde: the `Option<JsonRpcError>` field of a response. -/
def getOptError (members : List (String × Json)) (k : String) :
    Except String (Option JsonRpcError) :=
  match jlookup members k with
  | none => .ok none
  | some .null => .ok none
  | some v => (parseError v).map some

/-- Serde derive for `JsonRpcResponse`. -/
def parseResponse (v : Json) : Except String JsonRpcResponse :=
  match v with
  | .obj members => do
    let jsonrpc ← getReqString members "jsonrpc"
    let id ← getOptInt members "id"
    let err ← getOptError members "error"
    .ok ⟨jsonrpc, id, getOptJson members "result", err⟩
  | _ => .error "invalid type: JsonRpcResponse expects an object"

/-- Serde derive for `JsonRpcNotification`. -/
def parseNotif (v : Json) : Except String JsonRpcNotification :=
  match v with
  | .obj members => do
    let jsonrpc ← getReqString members "jsonrpc"
    let method ← getReqString members "method"
    .ok ⟨jsonrpc, method, getOptJson members "params"⟩
  | _ => .error "invalid type: JsonRpcNotification expects an object"

/-- The custom `Deserialize` implementation of `JsonRpcMessage`
(`protocol.rs` lines 84-133): classify by the fields present, then parse
the concrete struct. -/
def decodeMessage (v : Json) : Except String JsonRpcMessage :=
  match v with
  | .obj members =>
    match classifyObj members with
    | some .request => (parseRequest v).map .Request
    | some .notification => (parseNotif v).map .Notification
    | some .response => (parseResponse v).map .Response
    | none => .error "Cannot determine JSON-RPC message type"
  | _ => .error "JSON-RPC message must be an object"

/-! Serialization (serde derive `Serialize`).  Optional fields marked
`skip_serializing_if = "Option::is_none"` are omitted when `none`. -/

/-- A field list for an optional skip-if-none member. -/
def optField (k : String) : Option Json → List (String × Json)
  | none => []
  | some v => [(k, v)]

/-- Derived `Serialize` for `JsonRpcRequest` (params skipped when absent). -/
def encodeRequest (r : JsonRpcRequest) : Json :=
  .obj ([("jsonrpc", .str r.jsonrpc), ("id", .num r.id), ("method", .str r.method)]
    ++ optField "params" r.params)

/-- Derived `Serialize` for `JsonRpcError` (data skipped when absent). -/
def encodeError (e : JsonRpcError) : Json :=
  .obj ([("code", .num e.code), ("message", .str e.message)] ++ optField "data" e.data)

/-- Derived `Serialize` for `JsonRpcResponse`: the id is always emitted
(`null` when absent); result and error are skipped when absent. -/
def encodeResponse (r : JsonRpcResponse) : Json :=
  .obj ([("jsonrpc", .str r.jsonrpc),
         ("id", match r.id with | some i => .num i | none => .null)]
    ++ optField "result" r.result
    ++ (match r.error with | some e => [("error", encodeError e)] | none => []))

/-- Derived `Serialize` for `JsonRpcNotification`. -/
def encodeNotif (n : JsonRpcNotification) : Json :=
  .obj ([("jsonrpc", .str n.jsonrpc), ("method", .str n.method)]
    ++ optField "params" n.params)

/-- Derived `Serialize` for the enum `JsonRpcMessage` itself
(`protocol.rs` line 76): serde's default externally-tagged representation,
an object with a single member named after the variant. -/
def encodeMessage : JsonRpcMessage → Json
  | .Request r => .obj [("Request", encodeRequest r)]
  | .Response r => .obj [("Response", encodeResponse r)]
  | .Notification n => .obj [("Notification", encodeNotif n)]

/-- The wire encoding the code actually writes: each variant's payload
struct serialized directly (`serde_json::to_string(&request)` and friends in
`process.rs`), without the enum wrapper. -/
def encodeWire : JsonRpcMessage → Json
  | .Request r => encodeRequest r
  | .Response r => encodeResponse r
  | .Notification n => encodeNotif n

/-- Side conditions under which the wire encoding round-trips: optional
`Value` fields are not an explicit JSON `null` (serde reads null back as
`None`), and a response carries a non-null id, a result, or an error
(otherwise it serializes to an object the classifier rejects). -/
def wireRoundTrippable : JsonRpcMessage → Bool
  | .Request r => match r.params with | some .null => false | _ => true
  | .Notification n => match n.params with | some .null => false | _ => true
  | .Response r =>
    (r.id.isSome || r.result.isSome || r.error.isSome)
    && (match r.result with | some .null => false | _ => true)
    && (match r.error with
        | some e => match e.data with | some .null => false | _ => true
        | none => true)

/-! ## Typed ACP payloads (`acp/messages.rs`) -/

/-- `ToolCallStatus` of `messages.rs`. -/
inductive ToolCallStatus where
  | Pending
  | InProgress
  | Completed
  | Failed
deriving DecidableEq

/-- `ChunkContent` of `messages.rs` (tagged by `type`; only `text`). -/
inductive ChunkContent where
  | Text (text : String)
deriving DecidableEq

/-- `ChunkContent::get_text`. -/
def ChunkContent.get_text : ChunkContent → Option String
  | .Text t => some t

/-- `ContentChunk` of `messages.rs`. -/
structure ContentChunk where
  content : ChunkContent
deriving DecidableEq

/-- `ContentBlock` of `messages.rs` (tagged by `type`: text or image). -/
inductive ContentBlock where
  | Text (text : String)
  | Image (data : String) (mimeType : String)
deriving DecidableEq

/-- `Position` of `messages.rs` (`u32` line/character). -/
structure Position where
  line : Nat
  character : Nat
deriving DecidableEq

/-- `FileRange` of `messages.rs`. -/
structure FileRange where
  start : Position
  stop : Position
deriving DecidableEq

/-- `FileLocation` of `messages.rs`. -/
structure FileLocation where
  path : String
  range : Option FileRange
deriving DecidableEq

/-- `ToolCall` of `messages.rs`. -/
structure ToolCall where
  toolCallId : String
  title : String
  kind : Option String
  status : ToolCallStatus
  content : Option (List ContentBlock)
  locations : Option (List FileLocation)
  rawInput : Option Json
  rawOutput : Option Json

/-- `ToolCallUpdate` of `messages.rs` (every field but the id optional). -/
structure ToolCallUpdate where
  toolCallId : String
  title : Option String
  status : Option ToolCallStatus
  content : Option (List ContentBlock)
  locations : Option (List FileLocation)
  rawOutput : Option Json

/-- `PlanEntryStatus` of `messages.rs`. -/
inductive PlanEntryStatus where
  | Pending
  | InProgress
  | Completed
deriving DecidableEq

/-- `PlanEntryPriority` of `messages.rs`. -/
inductive PlanEntryPriority where
  | High
  | Medium
  | Low
deriving DecidableEq

/-- `PlanEntry` of `messages.rs`. -/
structure PlanEntry where
  id : String
  title : String
  status : PlanEntryStatus
  priority : Option PlanEntryPriority
deriving DecidableEq

/-- `Plan` of `messages.rs`. -/
structure Plan where
  entries : List PlanEntry
deriving DecidableEq

/-- `Command` of `messages.rs`. -/
structure Command where
  name : String
  description : Option String
deriving DecidableEq

/-- `AvailableCommandsUpdate` of `messages.rs`. -/
structure AvailableCommandsUpdate where
  commands : List Command
deriving DecidableEq

/-- `CurrentModeUpdate` of `messages.rs`. -/
structure CurrentModeUpdate where
  mode : String
deriving DecidableEq

/-- The typed `SessionUpdate` enum of `messages.rs` (internally tagged by
`type`, snake_case variant names). -/
inductive SessionUpdate where
  | UserMessageChunk (c : ContentChunk)
  | AgentMessageChunk (c : ContentChunk)
  | AgentThoughtChunk (c : ContentChunk)
  | ToolCall (tc : ToolCall)
  | ToolCallUpdate (tcu : ToolCallUpdate)
  | Plan (p : Plan)
  | AvailableCommandsUpdate (u : AvailableCommandsUpdate)
  | CurrentModeUpdate (u : CurrentModeUpdate)

/-- `SessionUpdate::needs_user_input` (`messages.rs` lines 220-227): only a
tool call (or tool-call update) whose status is `Pending`. -/
def SessionUpdate.needs_user_input : SessionUpdate → Bool
  | .ToolCall tc => tc.status = ToolCallStatus.Pending
  | .ToolCallUpdate tcu => tcu.status = some ToolCallStatus.Pending
  | _ => false

/-- `SessionUpdate::get_text` (`messages.rs` lines 230-237): the text of a
chunk-shaped update, nothing otherwise. -/
def SessionUpdate.get_text : SessionUpdate → Option String
  | .AgentMessageChunk c => c.content.get_text
  | .AgentThoughtChunk c => c.content.get_text
  | .UserMessageChunk c => c.content.get_text
  | _ => none

/-- `SessionUpdateNotification` of `messages.rs`. -/
structure SessionUpdateNotification where
  sessionId : String
  update : SessionUpdate

/-- `PermissionOptionKind` of `messages.rs`. -/
inductive PermissionOptionKind where
  | AllowOnce
  | AllowAlways
  | RejectOnce
  | RejectAlways
deriving DecidableEq

/-- `PermissionOption` of `messages.rs`. -/
structure PermissionOption where
  optionId : String
  name : String
  kind : PermissionOptionKind
  description : Option String
deriving DecidableEq

/-- `RequestPermissionRequest` of `messages.rs`. -/
structure RequestPermissionRequest where
  sessionId : String
  toolCall : ToolCallUpdate
  options : List PermissionOption

/-- `PermissionOutcomeValue` of `messages.rs` (tagged by `outcome`). -/
inductive PermissionOutcomeValue where
  | Selected (optionId : String)
  | Cancelled
deriving DecidableEq

/-- `RequestPermissionResponse` of `messages.rs`. -/
structure RequestPermissionResponse where
  outcome : PermissionOutcomeValue
deriving DecidableEq

/-- `RequestPermissionResponse::selected`. -/
def RequestPermissionResponse.selected (optionId : String) : RequestPermissionResponse :=
  ⟨.Selected optionId⟩

/-- `RequestPermissionResponse::cancelled`. -/
def RequestPermissionResponse.cancelled : RequestPermissionResponse :=
  ⟨.Cancelled⟩

/-- `LegacyUpdateContent` of `messages.rs`. -/
structure LegacyUpdateContent where
  contentType : String
  text : Option String
deriving DecidableEq

/-- `LegacySessionUpdate` of `messages.rs` (string-tagged dialect). -/
structure LegacySessionUpdate where
  sessionUpdate : String
  content : Option LegacyUpdateContent
  toolUseId : Option String
  name : Option String
  input : Option Json

/-- `LegacySessionUpdateNotification` of `messages.rs`. -/
structure LegacySessionUpdateNotification where
  sessionId : String
  update : LegacySessionUpdate

/-! ### Serde parsing of the typed payloads -/

/-- Serde: an optional field parsed with `p` when present and non-null. -/
def getOptParsed (p : Json → Except String α) (members : List (String × Json))
    (k : String) : Except String (Option α) :=
  match jlookup members k with
  | none => .ok none
  | some .null => .ok none
  | some v => (p v).map some

/-- Serde: a `Vec<T>` value parsed element-wise. -/
def parseList (p : Json → Except String α) : Json → Except String (List α)
  | .arr xs => xs.mapM p
  | _ => .error "invalid type: expected an array"

/-- Serde parse of `ToolCallStatus` from its snake_case string form. -/
def parseToolCallStatus (v : Json) : Except String ToolCallStatus :=
  match v with
  | .str "pending" => .ok .Pending
  | .str "in_progress" => .ok .InProgress
  | .str "completed" => .ok .Completed
  | .str "failed" => .ok .Failed
  | _ => .error "unknown variant of ToolCallStatus"

/-- Serde parse of the internally tagged `ChunkContent`. -/
def parseChunkContent (v : Json) : Except String ChunkContent :=
  match v with
  | .obj members =>
    match jlookup members "type" with
    | some (.str "text") => (getReqString members "text").map .Text
    | _ => .error "unknown variant of ChunkContent"
  | _ => .error "invalid type: ChunkContent expects an object"

/-- Serde parse of the internally tagged `ContentBlock`. -/
def parseContentBlock (v : Json) : Except String ContentBlock :=
  match v with
  | .obj members =>
    match jlookup members "type" with
    | some (.str "text") => (getReqString members "text").map .Text
    | some (.str "image") => do
      let data ← getReqString members "data"
      let mime ← getReqString members "mime_type"
      .ok (.Image data mime)
    | _ => .error "unknown variant of ContentBlock"
  | _ => .error "invalid type: ContentBlock expects an object"

/-- Serde parse of `Position` (`u32` fields must be non-negative). -/
def parsePosition (v : Json) : Except String Position :=
  match v with
  | .obj members => do
    let line ← getReqInt members "line"
    let ch ← getReqInt members "character"
    if line < 0 || ch < 0 then .error "invalid value: expected u32"
    else .ok ⟨line.toNat, ch.toNat⟩
  | _ => .error "invalid type: Position expects an object"

/-- Serde parse of `FileRange`. -/
def parseFileRange (v : Json) : Except String FileRange :=
  match v with
  | .obj members => do
    let s ← match jlookup members "start" with
      | some w => parsePosition w
      | none => .error "missing field start"
    let e ← match jlookup members "end" with
      | some w => parsePosition w
      | none => .error "missing field end"
    .ok ⟨s, e⟩
  | _ => .error "invalid type: FileRange expects an object"

/-- Serde parse of `FileLocation`. -/
def parseFileLocation (v : Json) : Except String FileLocation :=
  match v with
  | .obj members => do
    let path ← getReqString members "path"
    let range ← getOptParsed parseFileRange members "range"
    .ok ⟨path, range⟩
  | _ => .error "invalid type: FileLocation expects an object"

/-- Serde parse of the fields of `ToolCall` (from the tagged object). -/
def parseToolCall (v : Json) : Except String ToolCall :=
  match v with
  | .obj members => do
    let id ← getReqString members "toolCallId"
    let title ← getReqString members "title"
    let kind ← getOptString members "kind"
    let status ← match jlookup members "status" with
      | some w => parseToolCallStatus w
      | none => .error "missing field status"
    let content ← getOptParsed (parseList parseContentBlock) members "content"
    let locations ← getOptParsed (parseList parseFileLocation) members "locations"
    .ok ⟨id, title, kind, status, content, locations,
         getOptJson members "rawInput", getOptJson members "rawOutput"⟩
  | _ => .error "invalid type: ToolCall expects an object"

/-- Serde parse of the fields of `ToolCallUpdate`. -/
def parseToolCallUpdate (v : Json) : Except String ToolCallUpdate :=
  match v with
  | .obj members => do
    let id ← getReqString members "toolCallId"
    let title ← getOptString members "title"
    let status ← getOptParsed parseToolCallStatus members "status"
    let content ← getOptParsed (parseList parseContentBlock) members "content"
    let locations ← getOptParsed (parseList parseFileLocation) members "locations"
    .ok ⟨id, title, status, content, locations, getOptJson members "rawOutput"⟩
  | _ => .error "invalid type: ToolCallUpdate expects an object"

/-- Serde parse of `PlanEntryStatus`. -/
def parsePlanEntryStatus (v : Json) : Except String PlanEntryStatus :=
  match v with
  | .str "pending" => .ok .Pending
  | .str "in_progress" => .ok .InProgress
  | .str "completed" => .ok .Completed
  | _ => .error "unknown variant of PlanEntryStatus"

/-- Serde parse of `PlanEntryPriority`. -/
def parsePlanEntryPriority (v : Json) : Except String PlanEntryPriority :=
  match v with
  | .str "high" => .ok .High
  | .str "medium" => .ok .Medium
  | .str "low" => .ok .Low
  | _ => .error "unknown variant of PlanEntryPriority"

/-- Serde parse of `PlanEntry`. -/
def parsePlanEntry (v : Json) : Except String PlanEntry :=
  match v with
  | .obj members => do
    let id ← getReqString members "id"
    let title ← getReqString members "title"
    let status ← match jlookup members "status" with
      | some w => parsePlanEntryStatus w
      | none => .error "missing field status"
    let priority ← getOptParsed parsePlanEntryPriority members "priority"
    .ok ⟨id, title, status, priority⟩
  | _ => .error "invalid type: PlanEntry expects an object"

/-- Serde parse of the fields of `Plan`. -/
def parsePlan (v : Json) : Except String Plan :=
  match v with
  | .obj members =>
    match jlookup members "entries" with
    | some w => (parseList parsePlanEntry w).map Plan.mk
    | none => .error "missing field entries"
  | _ => .error "invalid type: Plan expects an object"

/-- Serde parse of `Command`. -/
def parseCommand (v : Json) : Except String Command :=
  match v with
  | .obj members => do
    let name ← getReqString members "name"
    let description ← getOptString members "description"
    .ok ⟨name, description⟩
  | _ => .error "invalid type: Command expects an object"

/-- Serde parse of the fields of `AvailableCommandsUpdate`. -/
def parseAvailableCommandsUpdate (v : Json) : Except String AvailableCommandsUpdate :=
  match v with
  | .obj members =>
    match jlookup members "commands" with
    | some w => (parseList parseCommand w).map AvailableCommandsUpdate.mk
    | none => .error "missing field commands"
  | _ => .error "invalid type: AvailableCommandsUpdate expects an object"

/-- Serde parse of the fields of `CurrentModeUpdate`. -/
def parseCurrentModeUpdate (v : Json) : Except String CurrentModeUpdate :=
  match v with
  | .obj members => (getReqString members "mode").map CurrentModeUpdate.mk
  | _ => .error "invalid type: CurrentModeUpdate expects an object"

/-- Serde parse of the internally tagged `SessionUpdate` (tag field `type`,
snake_case variant names). -/
def parseSessionUpdate (v : Json) : Except String SessionUpdate :=
  match v with
  | .obj members =>
    match jlookup members "type" with
    | some (.str tag) =>
      if tag = "user_message_chunk" then
        (getOptParsed parseChunkContent members "content").bind fun c =>
          match c with
          | some c => .ok (.UserMessageChunk ⟨c⟩)
          | none => .error "missing field content"
      else if tag = "agent_message_chunk" then
        (getOptParsed parseChunkContent members "content").bind fun c =>
          match c with
          | some c => .ok (.AgentMessageChunk ⟨c⟩)
          | none => .error "missing field content"
      else if tag = "agent_thought_chunk" then
        (getOptParsed parseChunkContent members "content").bind fun c =>
          match c with
          | some c => .ok (.AgentThoughtChunk ⟨c⟩)
          | none => .error "missing field content"
      else if tag = "tool_call" then (parseToolCall v).map .ToolCall
      else if tag = "tool_call_update" then (parseToolCallUpdate v).map .ToolCallUpdate
      else if tag = "plan" then (parsePlan v).map .Plan
      else if tag = "available_commands_update" then
        (parseAvailableCommandsUpdate v).map .AvailableCommandsUpdate
      else if tag = "current_mode_update" then
        (parseCurrentModeUpdate v).map .CurrentModeUpdate
      else .error ("unknown variant " ++ tag)
    | _ => .error "missing tag field type"
  | _ => .error "invalid type: SessionUpdate expects an object"

/-- Serde parse of `SessionUpdateNotification`. -/
def parseSessionUpdateNotification (v : Json) :
    Except String SessionUpdateNotification :=
  match v with
  | .obj members => do
    let sid ← getReqString members "sessionId"
    let upd ← match jlookup members "update" with
      | some w => parseSessionUpdate w
      | none => .error "missing field update"
    .ok ⟨sid, upd⟩
  | _ => .error "invalid type: SessionUpdateNotification expects an object"

/-- Serde parse of `LegacyUpdateContent`. -/
def parseLegacyUpdateContent (v : Json) : Except String LegacyUpdateContent :=
  match v with
  | .obj members => do
    let ct ← getReqString members "type"
    let text ← getOptString members "text"
    .ok ⟨ct, text⟩
  | _ => .error "invalid type: LegacyUpdateContent expects an object"

/-- Serde parse of `LegacySessionUpdate` (the string-tagged dialect). -/
def parseLegacySessionUpdate (v : Json) : Except String LegacySessionUpdate :=
  match v with
  | .obj members => do
    let su ← getReqString members "sessionUpdate"
    let content ← getOptParsed parseLegacyUpdateContent members "content"
    let toolUseId ← getOptString members "toolUseId"
    let name ← getOptString members "name"
    .ok ⟨su, content, toolUseId, name, getOptJson members "input"⟩
  | _ => .error "invalid type: LegacySessionUpdate expects an object"

/-- Serde parse of `LegacySessionUpdateNotification`. -/
def parseLegacyNotification (v : Json) :
    Except String LegacySessionUpdateNotification :=
  match v with
  | .obj members => do
    let sid ← getReqString members "sessionId"
    let upd ← match jlookup members "update" with
      | some w => parseLegacySessionUpdate w
      | none => .error "missing field update"
    .ok ⟨sid, upd⟩
  | _ => .error "invalid type: LegacySessionUpdateNotification expects an object"

/-- Serde parse of `PermissionOptionKind`. -/
def parsePermissionOptionKind (v : Json) : Except String PermissionOptionKind :=
  match v with
  | .str "allow_once" => .ok .AllowOnce
  | .str "allow_always" => .ok .AllowAlways
  | .str "reject_once" => .ok .RejectOnce
  | .str "reject_always" => .ok .RejectAlways
  | _ => .error "unknown variant of PermissionOptionKind"

/-- Serde parse of `PermissionOption`. -/
def parsePermissionOption (v : Json) : Except String PermissionOption :=
  match v with
  | .obj members => do
    let oid ← getReqString members "optionId"
    let name ← getReqString members "name"
    let kind ← match jlookup members "kind" with
      | some w => parsePermissionOptionKind w
      | none => .error "missing field kind"
    let description ← getOptString members "description"
    .ok ⟨oid, name, kind, description⟩
  | _ => .error "invalid type: PermissionOption expects an object"

/-- Serde parse of `RequestPermissionRequest`. -/
def parseRequestPermission (v : Json) : Except String RequestPermissionRequest :=
  match v with
  | .obj members => do
    let sid ← getReqString members "sessionId"
    let tc ← match jlookup members "toolCall" with
      | some w => parseToolCallUpdate w
      | none => .error "missing field toolCall"
    let options ← match jlookup members "options" with
      | some w => parseList parsePermissionOption w
      | none => .error "missing field options"
    .ok ⟨sid, tc, options⟩
  | _ => .error "invalid type: RequestPermissionRequest expects an object"

/-- Derived `Serialize` of `PermissionOutcomeValue` (tag field `outcome`). -/
def encodePermissionOutcome : PermissionOutcomeValue → Json
  | .Selected oid => .obj [("outcome", .str "selected"), ("optionId", .str oid)]
  | .Cancelled => .obj [("outcome", .str "cancelled")]

/-- Derived `Serialize` of `RequestPermissionResponse`. -/
def encodePermissionResponse (r : RequestPermissionResponse) : Json :=
  .obj [("outcome", encodePermissionOutcome r.outcome)]

/-! ## Agent-side data (`agent/process.rs`) -/

/-- `PendingInputType` of `process.rs`. -/
inductive PendingInputType where
  | ToolPermission
  | UserQuestion
  | Confirmation
deriving DecidableEq

/-- `PendingInput` of `process.rs` (timestamps are the `ts` parameter). -/
structure PendingInput where
  id : String
  inputType : PendingInputType
  toolName : Option String
  message : String
  timestamp : Nat
deriving DecidableEq

/-- `AgentStatus` of `process.rs`. -/
inductive AgentStatus where
  | Initializing
  | Idle
  | Working
  | Paused
  | Error
  | Stopped
deriving DecidableEq

/-- `PermissionUserResponse` of `process.rs`: the external decision. -/
structure PermissionUserResponse where
  approved : Bool
  optionId : Option String
deriving DecidableEq

/-- `ToolUpdate` of `process.rs`. -/
structure ToolUpdate where
  name : String
  input : Option Json

/-- `AgentUpdate` of `process.rs`: one host-facing update event. -/
structure AgentUpdate where
  agentId : String
  updateType : String
  message : Option String
  tool : Option ToolUpdate
  progress : Option Int
  currentFile : Option String
  status : Option AgentStatus
  pendingInputs : Option (List PendingInput)

/-- The mutable fields of `AgentProcess` the prompt machinery reads or
writes (`process.rs` lines 68-81).  The inert fields (`name`,
`working_directory`, `tokens_used`) and the process/codec handles are
omitted; `progress` is an `f64` in the source but only ever holds the
exact values `0.0` and `100.0`, modelled as `Int`. -/
structure AgentState where
  sessionId : Option String
  status : AgentStatus
  currentFile : Option String
  progress : Int
  pendingInputs : List PendingInput
  requestId : Int
deriving DecidableEq

/-- The error enum `AgentProcessError` of `process.rs`; the variant raised
only by the unmodelled first handshake is omitted. -/
inductive AgentProcessError where
  | SpawnFailed (e : String)
  | StdinUnavailable
  | StdoutUnavailable
  | CommunicationError (e : String)
  | SessionCreateFailed (e : String)
  | NoSession
  | PromptFailed (e : String)
  | StopFailed (e : String)
deriving DecidableEq

/-- `AgentProcess::add_pending_input` (`process.rs` lines 791-794): push the
record and move to `Paused`. -/
def addPendingInput (st : AgentState) (input : PendingInput) : AgentState :=
  { st with pendingInputs := st.pendingInputs ++ [input], status := .Paused }

/-- `AgentProcess::clear_pending_input` (`process.rs` lines 797-802): drop
records with the id; if none remain, move to `Idle`. -/
def clearPendingInput (st : AgentState) (inputId : String) : AgentState :=
  let remaining := st.pendingInputs.filter (fun i => i.id != inputId)
  if remaining.isEmpty then { st with pendingInputs := remaining, status := .Idle }
  else { st with pendingInputs := remaining }

/-- `AgentProcess::has_pending_inputs`. -/
def hasPendingInputs (st : AgentState) : Bool :=
  !st.pendingInputs.isEmpty

/-! ## The pure update interpreter (`agent/message_processor.rs`) -/

/-- `ProcessingResult` of `message_processor.rs`. -/
structure ProcessingResult where
  updates : List AgentUpdate
  pendingInputs : List PendingInput
  accumulatedText : String
  currentFile : Option String

/-- `extract_file_path` of `message_processor.rs`: `file_path`, else `path`,
and only if the found value is a string. -/
def extract_file_path (input : Json) : Option String :=
  match input with
  | .obj members =>
    match jlookup members "file_path" with
    | some v => match v with | .str s => some s | _ => none
    | none =>
      match jlookup members "path" with
      | some v => match v with | .str s => some s | _ => none
      | none => none
  | _ => none

/-- The `update_type` string assigned to each typed variant
(`message_processor.rs` lines 72-81 and `process.rs` lines 388-397). -/
def typedUpdateTypeName : SessionUpdate → String
  | .AgentMessageChunk _ => "agent_message_chunk"
  | .AgentThoughtChunk _ => "agent_thought_chunk"
  | .UserMessageChunk _ => "user_message_chunk"
  | .ToolCall _ => "tool_call"
  | .ToolCallUpdate _ => "tool_call_update"
  | .Plan _ => "plan"
  | .AvailableCommandsUpdate _ => "available_commands_update"
  | .CurrentModeUpdate _ => "current_mode_update"

/-- The tool-call fields relevant to a pending tool call: the guarded match
at the head of `create_pending_tool_call` (`message_processor.rs` lines
189-199) and `handle_pending_tool_call` (`process.rs` lines 474-482). -/
def pendingToolCallFields : SessionUpdate → Option (String × String × Option Json)
  | .ToolCall tc =>
    if tc.status = ToolCallStatus.Pending then some (tc.toolCallId, tc.title, tc.rawInput)
    else none
  | .ToolCallUpdate tcu =>
    if tcu.status = some ToolCallStatus.Pending then
      some (tcu.toolCallId, (tcu.title.getD ""), none)
    else none
  | _ => none

/-- `create_pending_tool_call` of `message_processor.rs` (lines 184-229). -/
def create_pending_tool_call (agentId : String) (update : SessionUpdate)
    (currentFile : Option String) (ts : Nat) : Option (PendingInput × AgentUpdate) :=
  match pendingToolCallFields update with
  | none => none
  | some (toolCallId, title, rawInput) =>
    let pendingInput : PendingInput :=
      ⟨toolCallId, .ToolPermission, some title, "Agent wants to: " ++ title, ts⟩
    let agentUpdate : AgentUpdate :=
      ⟨agentId, "pending_input", some pendingInput.message, some ⟨title, rawInput⟩,
       none, currentFile, none, none⟩
    some (pendingInput, agentUpdate)

/-- The Rust `Debug` rendering of `PlanEntryStatus` used in the plan
summary string. -/
def debugPlanEntryStatus : PlanEntryStatus → String
  | .Pending => "Pending"
  | .InProgress => "InProgress"
  | .Completed => "Completed"

/-- The `(message, tool)` pair built for the main update by
`process_typed_session_update` (`message_processor.rs` lines 125-166). -/
def mainMessageTool : SessionUpdate → Option String × Option ToolUpdate
  | .AgentMessageChunk chunk => (chunk.content.get_text, none)
  | .AgentThoughtChunk chunk => (chunk.content.get_text, none)
  | .ToolCall tc => (some tc.title, some ⟨tc.title, tc.rawInput⟩)
  | .ToolCallUpdate tcu => (tcu.title, some ⟨tcu.title.getD "", none⟩)
  | .Plan plan =>
    (some (String.intercalate ", "
      (plan.entries.map (fun e => e.title ++ ": " ++ debugPlanEntryStatus e.status))), none)
  | .CurrentModeUpdate mode => (some ("Mode: " ++ mode.mode), none)
  | .AvailableCommandsUpdate cmds =>
    (some ("Commands: " ++ String.intercalate ", " (cmds.commands.map (·.name))), none)
  | .UserMessageChunk _ => (none, none)

/-- Current-file tracking of `process_typed_session_update`
(`message_processor.rs` lines 99-122): the first location's path, else a
`file_path`/`path` scraped from the raw tool input, else unchanged. -/
def trackCurrentFile (update : SessionUpdate) (currentFile : Option String) :
    Option String :=
  match update with
  | .ToolCall tc =>
    match tc.locations with
    | some locs =>
      match locs.head? with
      | some first => some first.path
      | none => currentFile
    | none =>
      match tc.rawInput with
      | some raw =>
        match extract_file_path raw with
        | some p => some p
        | none => currentFile
      | none => currentFile
  | .ToolCallUpdate tcu =>
    match tcu.locations with
    | some locs =>
      match locs.head? with
      | some first => some first.path
      | none => currentFile
    | none => currentFile
  | _ => currentFile

/-- `process_typed_session_update` of `message_processor.rs` (lines 64-181):
the pure interpreter for one typed update. -/
def process_typed_session_update (agentId : String) (update : SessionUpdate)
    (currentFile : Option String) (ts : Nat) : ProcessingResult :=
  let pendingPart : List PendingInput × List AgentUpdate :=
    if update.needs_user_input then
      match create_pending_tool_call agentId update currentFile ts with
      | some (pi, pu) => ([pi], [pu])
      | none => ([], [])
    else ([], [])
  let accumulated := match update.get_text with
    | some t => t
    | none => ""
  let currentFile1 := trackCurrentFile update currentFile
  let mt := mainMessageTool update
  let mainUpdate : AgentUpdate :=
    ⟨agentId, typedUpdateTypeName update, mt.1, mt.2, none, currentFile1, none, none⟩
  ⟨pendingPart.2 ++ [mainUpdate], pendingPart.1, accumulated, currentFile1⟩

/-! ## The prompt state machine and read loop (`agent/process.rs`) -/

/-- Whether `pre` is a prefix of `l` (character-wise). -/
def listStartsWith : List Char → List Char → Bool
  | [], _ => true
  | _ :: _, [] => false
  | a :: as, b :: bs => a == b && listStartsWith as bs

/-- Whether `needle` occurs as a contiguous subsequence of `hay`. -/
def listContainsSeq (needle : List Char) : List Char → Bool
  | [] => needle.isEmpty
  | c :: rest => listStartsWith needle (c :: rest) || listContainsSeq needle rest

/-- Rust `str::contains` on substrings. -/
def strContains (s sub : String) : Bool :=
  listContainsSeq sub.toList s.toList

/-- `Value::get` on a JSON value (a member lookup on objects only). -/
def Json.get? : Json → String → Option Json
  | .obj members, k => jlookup members k
  | _, _ => none

/-- `Value::as_str`. -/
def Json.asStr? : Json → Option String
  | .str s => some s
  | _ => none

/-- `Value::as_array`. -/
def Json.asArr? : Json → Option (List Json)
  | .arr xs => some xs
  | _ => none

/-- `AgentProcess::extract_file_path_from_input` (`process.rs` lines
615-621).  Unlike the interpreter's `extract_file_path`, a present but
non-string `file_path` (or `path`) member overwrites the current file with
`None`. -/
def extractFilePathFromInput (currentFile : Option String) (input : Json) :
    Option String :=
  match input.get? "file_path" with
  | some v => v.asStr?
  | none =>
    match input.get? "path" with
    | some v => v.asStr?
    | none => currentFile

/-- `Uuid::new_v4` modelled as an opaque fresh identifier (used only for a
legacy pending input that carries no `toolUseId`; no verified property
depends on its value). -/
def freshUuid : String := "uuid-v4"

/-- The `(message, tool)` pair built by `AgentProcess::process_typed_update`
(`process.rs` lines 433-453); unlike the interpreter's, plan/commands/mode
updates carry no message. -/
def processMainMessageTool : SessionUpdate → Option String × Option ToolUpdate
  | .AgentMessageChunk chunk => (chunk.content.get_text, none)
  | .AgentThoughtChunk chunk => (chunk.content.get_text, none)
  | .ToolCall tc => (some tc.title, some ⟨tc.title, tc.rawInput⟩)
  | .ToolCallUpdate tcu => (tcu.title, some ⟨tcu.title.getD "", none⟩)
  | _ => (none, none)

/-- `AgentProcess::handle_pending_tool_call` (`process.rs` lines 469-514):
record a `PendingInput`, move to `Paused`, and emit the synthetic
`pending_input` update. -/
def handlePendingToolCall (aid : String) (ts : Nat) (st : AgentState)
    (updates : List AgentUpdate) (update : SessionUpdate) :
    AgentState × List AgentUpdate :=
  match pendingToolCallFields update with
  | none => (st, updates)
  | some (toolCallId, title, rawInput) =>
    let pendingInput : PendingInput :=
      ⟨toolCallId, .ToolPermission, some title, "Agent wants to: " ++ title, ts⟩
    let st1 := addPendingInput st pendingInput
    let agentUpdate : AgentUpdate :=
      ⟨aid, "pending_input", some pendingInput.message, some ⟨title, rawInput⟩,
       none, st1.currentFile, some st1.status, some st1.pendingInputs⟩
    (st1, updates ++ [agentUpdate])

/-- `AgentProcess::process_typed_update` (`process.rs` lines 382-466). -/
def processTypedUpdate (aid : String) (ts : Nat) (st : AgentState) (acc : String)
    (updates : List AgentUpdate) (update : SessionUpdate) :
    AgentState × String × List AgentUpdate :=
  let step1 :=
    if update.needs_user_input then handlePendingToolCall aid ts st updates update
    else (st, updates)
  let st1 := step1.1
  let acc1 := match update.get_text with
    | some t => acc ++ t
    | none => acc
  let st2 :=
    match update with
    | .ToolCall tc =>
      match tc.locations with
      | some locs =>
        match locs.head? with
        | some first => { st1 with currentFile := some first.path }
        | none => st1
      | none =>
        match tc.rawInput with
        | some raw => { st1 with currentFile := extractFilePathFromInput st1.currentFile raw }
        | none => st1
    | .ToolCallUpdate tcu =>
      match tcu.locations with
      | some locs =>
        match locs.head? with
        | some first => { st1 with currentFile := some first.path }
        | none => st1
      | none => st1
    | _ => st1
  let mt := processMainMessageTool update
  let mainUpdate : AgentUpdate :=
    ⟨aid, typedUpdateTypeName update, mt.1, mt.2, none, st2.currentFile, none, none⟩
  (st2, acc1, step1.2 ++ [mainUpdate])

/-- `AgentProcess::process_legacy_update` (`process.rs` lines 517-612). -/
def processLegacyUpdate (aid : String) (ts : Nat) (st : AgentState) (acc : String)
    (updates : List AgentUpdate) (legacy : LegacySessionUpdateNotification) :
    AgentState × String × List AgentUpdate :=
  let update := legacy.update
  let updateType := update.sessionUpdate
  let isInputRequest := strContains updateType "permission"
    || strContains updateType "input_request"
    || strContains updateType "confirmation"
    || updateType = "waiting_for_user"
  let step1 :=
    if isInputRequest then
      let inputType :=
        if strContains updateType "permission" then PendingInputType.ToolPermission
        else if strContains updateType "confirmation" then PendingInputType.Confirmation
        else PendingInputType.UserQuestion
      let message := (update.content.bind (·.text)).getD
        ("Agent needs permission to use: " ++ update.name.getD "unknown tool")
      let pendingInput : PendingInput :=
        ⟨update.toolUseId.getD freshUuid, inputType, update.name, message, ts⟩
      let st1 := addPendingInput st pendingInput
      let agentUpdate : AgentUpdate :=
        ⟨aid, "pending_input", some message,
         update.name.map (fun n => ⟨n, update.input⟩),
         none, st1.currentFile, some st1.status, some st1.pendingInputs⟩
      (st1, updates ++ [agentUpdate])
    else (st, updates)
  let st1 := step1.1
  let st2 := match update.input with
    | some inp => { st1 with currentFile := extractFilePathFromInput st1.currentFile inp }
    | none => st1
  let message := update.content.bind (·.text)
  let acc1 := match message with
    | some t => acc ++ t
    | none => acc
  let mainUpdate : AgentUpdate :=
    ⟨aid, update.sessionUpdate, message,
     update.name.map (fun n => ⟨n, update.input⟩),
     none, st2.currentFile, none, none⟩
  (st2, acc1, step1.2 ++ [mainUpdate])

/-- The last-resort raw scrape of `AgentProcess::handle_session_update`
(`process.rs` lines 344-378), applied when neither dialect parses. -/
def rawFallback (aid : String) (st : AgentState) (updates : List AgentUpdate)
    (params : Json) : AgentState × List AgentUpdate :=
  match params.get? "update" with
  | some upd =>
    let locPath := (upd.get? "locations").bind fun locs =>
      (locs.asArr?).bind fun arr =>
        arr.head?.bind fun first => (first.get? "path").bind Json.asStr?
    let st1 := match locPath with
      | some p => { st with currentFile := some p }
      | none => st
    let st2 :=
      if st1.currentFile = none then
        match upd.get? "rawInput" with
        | some raw => { st1 with currentFile := extractFilePathFromInput st1.currentFile raw }
        | none => st1
      else st1
    let updateType := ((upd.get? "sessionUpdate").bind Json.asStr?).getD "unknown"
    let title := (upd.get? "title").bind Json.asStr?
    let agentUpdate : AgentUpdate :=
      ⟨aid, updateType, title, title.map (fun t => ⟨t, none⟩),
       none, st2.currentFile, none, none⟩
    (st2, updates ++ [agentUpdate])
  | none => (st, updates)

/-- `AgentProcess::handle_session_update` (`process.rs` lines 310-379):
typed dialect first, then legacy, then the raw scrape; never fails. -/
def handleSessionUpdate (aid : String) (ts : Nat) (st : AgentState) (acc : String)
    (updates : List AgentUpdate) (params : Json) :
    AgentState × String × List AgentUpdate :=
  match parseSessionUpdateNotification params with
  | .ok n => processTypedUpdate aid ts st acc updates n.update
  | .error _ =>
    match parseLegacyNotification params with
    | .ok legacy => processLegacyUpdate aid ts st acc updates legacy
    | .error _ =>
      let r := rawFallback aid st updates params
      (r.1, acc, r.2)

/-- One notification step of the read loop (`process.rs` lines 274-282):
only `session/update` notifications with params are interpreted. -/
def stepNotif (aid : String) (ts : Nat) (st : AgentState) (acc : String)
    (updates : List AgentUpdate) (n : JsonRpcNotification) :
    AgentState × String × List AgentUpdate :=
  if n.method = "session/update" then
    match n.params with
    | some params => handleSessionUpdate aid ts st acc updates params
    | none => (st, acc, updates)
  else (st, acc, updates)

/-- Whether a permission option is Allow-kind (the `matches!` in
`process.rs` line 727). -/
def isAllowOption (o : PermissionOption) : Bool :=
  match o.kind with
  | .AllowOnce | .AllowAlways => true
  | _ => false

/-- Whether a permission option is Reject-kind (the `matches!` in
`process.rs` line 737). -/
def isRejectOption (o : PermissionOption) : Bool :=
  match o.kind with
  | .RejectOnce | .RejectAlways => true
  | _ => false

/-- The decision-to-response selection of
`AgentProcess::handle_permission_request` (`process.rs` lines 722-746):
approved takes the caller's option id, else the first Allow-kind option,
else the first option (or the empty default); denied takes the first
Reject-kind option, else cancellation. -/
def selectPermissionResponse (options : List PermissionOption) (approved : Bool)
    (optionId : Option String) : RequestPermissionResponse :=
  if approved then
    let oid := match optionId with
      | some oid => oid
      | none =>
        match options.find? isAllowOption with
        | some o => o.optionId
        | none =>
          match options.head? with
          | some o => o.optionId
          | none => ""
    .selected oid
  else
    match options.find? isRejectOption with
    | some r => .selected r.optionId
    | none => .cancelled

/-- `JsonRpcResponse::success`. -/
def JsonRpcResponse.success (id : Int) (result : Json) : JsonRpcResponse :=
  ⟨"2.0", some id, some result, none⟩

/-- `JsonRpcResponse::error` (named `errorResponse` here because `error` is
already the struct field). -/
def JsonRpcResponse.errorResponse (id : Int) (code : Int) (message : String) :
    JsonRpcResponse :=
  ⟨"2.0", some id, none, some ⟨code, message, none⟩⟩

/-- The key of the pending-permissions table (`pool.rs` line 23). -/
def permKey (agentId inputId : String) : String :=
  agentId ++ ":" ++ inputId

/-- One delivery of the codec's `read_message` inside the loop: a decoded
message, an empty/end-of-stream read (`Ok(None)`), or a read failure. -/
inductive ReadEvent where
  | msg (m : JsonRpcMessage)
  | empty
  | readErr (e : String)

/-- How a modelled run of the read loop ends: the prompt's result, a
failure, or the (finite) event stream ran out while the real loop would
still be blocked reading. -/
inductive LoopOutcome where
  | ok (text : String)
  | fail (e : AgentProcessError)
  | starved (text : String)
deriving DecidableEq

/-- The observable result of a run of the read loop: outcome, final agent
state, messages written to the subprocess, host-facing updates sent, and
keys stored in the pending-permissions table. -/
structure LoopResult where
  outcome : LoopOutcome
  st : AgentState
  written : List Json
  updates : List AgentUpdate
  stored : List String

/-- The result of one incoming-request step. -/
structure ReqStep where
  res : Option AgentProcessError
  st : AgentState
  written : List Json
  updates : List AgentUpdate
  stored : List String
  decisions : List (Option PermissionUserResponse)

/-- `AgentProcess::handle_incoming_request` together with
`handle_permission_request` (`process.rs` lines 624-764).  The one-shot
decision channel is modelled by consuming the head of `decisions`; `none`
(or an exhausted list) models a dropped channel, which the source surfaces
as the channel-closed `CommunicationError`. -/
def stepReq (aid : String) (ts : Nat) (st : AgentState) (written : List Json)
    (updates : List AgentUpdate) (stored : List String) (req : JsonRpcRequest)
    (decisions : List (Option PermissionUserResponse)) : ReqStep :=
  if req.method = "session/request_permission" then
    match req.params with
    | none => ⟨none, st, written, updates, stored, decisions⟩
    | some params =>
      match parseRequestPermission params with
      | .error e =>
        ⟨some (.CommunicationError ("Invalid permission request: " ++ e)),
         st, written, updates, stored, decisions⟩
      | .ok request =>
        let inputId := "perm_req_" ++ toString req.id
        let pendingInput : PendingInput :=
          ⟨inputId, .ToolPermission, request.toolCall.title,
           "Permission requested: " ++ (request.toolCall.title.getD "unknown tool"), ts⟩
        let st1 := addPendingInput st pendingInput
        let stored1 := stored ++ [permKey aid inputId]
        let agentUpdate : AgentUpdate :=
          ⟨aid, "permission_request", some pendingInput.message,
           request.toolCall.title.map (fun n => ⟨n, none⟩),
           none, st1.currentFile, some st1.status, some st1.pendingInputs⟩
        let updates1 := updates ++ [agentUpdate]
        match decisions with
        | some decision :: rest =>
          let response := selectPermissionResponse request.options
            decision.approved decision.optionId
          let rpcResponse := JsonRpcResponse.success req.id
            (encodePermissionResponse response)
          let st2 := clearPendingInput st1 inputId
          ⟨none, st2, written ++ [encodeResponse rpcResponse], updates1, stored1, rest⟩
        | none :: rest =>
          ⟨some (.CommunicationError "Permission request channel closed"),
           st1, written, updates1, stored1, rest⟩
        | [] =>
          ⟨some (.CommunicationError "Permission request channel closed"),
           st1, written, updates1, stored1, []⟩
  else
    let response := JsonRpcResponse.errorResponse req.id (-32601)
      ("Method not found: " ++ req.method)
    ⟨none, st, written ++ [encodeResponse response], updates, stored, decisions⟩

/-- The unbounded read loop of `AgentProcess::send_prompt` (`process.rs`
lines 263-307), run over a finite stream of read events. -/
def promptLoop (aid : String) (ts : Nat) (st : AgentState) (acc : String)
    (written : List Json) (updates : List AgentUpdate) (stored : List String) :
    List ReadEvent → List (Option PermissionUserResponse) → LoopResult
  | [], _ => ⟨.starved acc, st, written, updates, stored⟩
  | .empty :: rest, ds => promptLoop aid ts st acc written updates stored rest ds
  | .readErr e :: _, _ =>
    ⟨.fail (.CommunicationError e), st, written, updates, stored⟩
  | .msg (.Notification n) :: rest, ds =>
    let r := stepNotif aid ts st acc updates n
    promptLoop aid ts r.1 r.2.1 written r.2.2 stored rest ds
  | .msg (.Response resp) :: rest, ds =>
    match resp.error with
    | some e =>
      ⟨.fail (.PromptFailed e.message), { st with status := .Error },
       written, updates, stored⟩
    | none =>
      match resp.result with
      | some _ =>
        ⟨.ok acc, { st with status := .Idle, progress := 100 },
         written, updates, stored⟩
      | none => promptLoop aid ts st acc written updates stored rest ds
  | .msg (.Request req) :: rest, ds =>
    let r := stepReq aid ts st written updates stored req ds
    match r.res with
    | some e => ⟨.fail e, r.st, r.written, r.updates, r.stored⟩
    | none => promptLoop aid ts r.st acc r.written r.updates r.stored rest r.decisions

/-- `PromptContent` of `messages.rs`. -/
structure PromptContent where
  contentType : String
  text : String

/-- `PromptContent::text` (named `ofText`: `text` is the struct field). -/
def PromptContent.ofText (t : String) : PromptContent :=
  ⟨"text", t⟩

/-- Derived `Serialize` for `PromptContent`. -/
def encodePromptContent (p : PromptContent) : Json :=
  .obj [("type", .str p.contentType), ("text", .str p.text)]

/-- `SessionPromptParams` of `messages.rs`. -/
structure SessionPromptParams where
  sessionId : String
  prompt : List PromptContent

/-- Derived `Serialize` for `SessionPromptParams`. -/
def encodeSessionPromptParams (p : SessionPromptParams) : Json :=
  .obj [("sessionId", .str p.sessionId),
        ("prompt", .arr (p.prompt.map encodePromptContent))]

/-- `AgentProcess::send_prompt` (`process.rs` lines 220-307): fail with
`NoSession` when no session id is set; otherwise move to `Working` with
progress 0, write the `session/prompt` request and run the read loop. -/
def sendPrompt (aid : String) (ts : Nat) (st : AgentState) (prompt : String)
    (events : List ReadEvent) (decisions : List (Option PermissionUserResponse)) :
    LoopResult :=
  match st.sessionId with
  | none => ⟨.fail .NoSession, st, [], [], []⟩
  | some sid =>
    let st1 :=
      { st with status := .Working, progress := 0, requestId := st.requestId + 1 }
    let request : JsonRpcRequest :=
      ⟨"2.0", st.requestId, "session/prompt",
       some (encodeSessionPromptParams ⟨sid, [PromptContent.ofText prompt]⟩)⟩
    promptLoop aid ts st1 "" [encodeRequest request] [] [] events decisions

/-! ## The pending-permissions table (`agent/pool.rs`) -/

/-- The pending-permissions table (`PendingPermissions` of `pool.rs`): a
map from `agent:input` keys to the one-shot decision channel, modelled by
whether its receiving half is still alive. -/
def PendingPermissionsTable := String → Option Bool

/-- `PendingPermissions::respond` (`pool.rs` lines 27-37): remove the
channel for the key and deliver the decision on it; a missing key or a
dropped receiver yields a `CommunicationError`.  The decision value itself
does not affect the table. -/
def PendingPermissions.respond (table : PendingPermissionsTable)
    (agentId inputId : String) (response : PermissionUserResponse) :
    Except AgentProcessError Unit × PendingPermissionsTable :=
  let _ := response
  let key := permKey agentId inputId
  match table key with
  | some alive =>
    let table' : PendingPermissionsTable := fun k => if k = key then none else table k
    (if alive then .ok ()
     else .error (.CommunicationError "Failed to send permission response"), table')
  | none =>
    (.error (.CommunicationError ("No pending permission with id: " ++ inputId)), table)

/-- `AgentPool::respond_to_permission` (`pool.rs` lines 146-156): package
the decision and resolve it through the shared table, without touching any
per-agent lock. -/
def respond_to_permission (table : PendingPermissionsTable)
    (agentId inputId : String) (approved : Bool) (optionId : Option String) :
    Except AgentProcessError Unit × PendingPermissionsTable :=
  PendingPermissions.respond table agentId inputId ⟨approved, optionId⟩

/-! ## Concrete scenario values used by the witnesses and counterexamples -/

/-- The params of the ambiguous null-id notification scenario. -/
def ambigParams : Json := .obj [("sessionId", .str "abc")]

/-- The ambiguous payload with an explicit null id and a method. -/
def ambigNotifJson : Json :=
  .obj [("jsonrpc", .str "2.0"), ("id", .null), ("method", .str "session/update"),
        ("params", ambigParams)]

/-- A plain notification value, for the enum-encoding counterexample. -/
def c2notif : JsonRpcNotification := ⟨"2.0", "session/update", none⟩

/-- A representative request message for the wire round-trip witness. -/
def c2req : JsonRpcMessage :=
  .Request ⟨"2.0", 7, "session/prompt", some (.obj [("sessionId", .str "s")])⟩

/-- A pending tool call, for the update-interpreter witness. -/
def c3update : SessionUpdate :=
  .ToolCall ⟨"tc-123", "Write file", none, .Pending, none, none, none, none⟩

/-- The option list of the permission scenario: one Allow, one Reject. -/
def c4opts : List PermissionOption :=
  [⟨"a", "Allow", .AllowOnce, none⟩, ⟨"b", "Reject", .RejectOnce, none⟩]

/-- An option list with a single Allow-kind option. -/
def c5opts : List PermissionOption := [⟨"a", "Allow", .AllowOnce, none⟩]

/-- An idle agent with a session, the starting state of the scenarios. -/
def st0 : AgentState := ⟨some "sess-1", .Idle, none, 0, [], 1⟩

/-- An agent in the `Error` status that still holds a session id. -/
def stErrC7 : AgentState := ⟨some "sess", .Error, none, 55, [], 3⟩

/-- A `session/update` params payload carrying an agent message chunk with
text `Hello`. -/
def helloParams : Json :=
  .obj [("sessionId", .str "sess-1"),
        ("update", .obj [("type", .str "agent_message_chunk"),
                         ("content", .obj [("type", .str "text"), ("text", .str "Hello")])])]

/-- The happy-path stream: one message chunk, then a success response. -/
def happyEvents : List ReadEvent :=
  [.msg (.Notification ⟨"2.0", "session/update", some helloParams⟩),
   .msg (.Response ⟨"2.0", some 1, some (.obj [("stopReason", .str "end_turn")]), none⟩)]

/-- A `session/update` params payload carrying a pending tool call. -/
def toolCallPendingParams : Json :=
  .obj [("sessionId", .str "sess-1"),
        ("update", .obj [("type", .str "tool_call"), ("toolCallId", .str "tc-1"),
                         ("title", .str "First tool"), ("status", .str "pending")])]

/-- A stream with a pending tool call followed by a success response. -/
def c9events : List ReadEvent :=
  [.msg (.Notification ⟨"2.0", "session/update", some toolCallPendingParams⟩),
   .msg (.Response ⟨"2.0", some 1, some (.obj [("stopReason", .str "end_turn")]), none⟩)]

/-- A permissions table holding exactly the key `A:in1` with a live
receiver. -/
def c10table : PendingPermissionsTable :=
  fun k => if k = "A:in1" then some true else none

/-! ## Verified properties -/

/-- C1: message classification is the four-step algorithm and is total and
deterministic (it is a function on decoded objects): an object with a
`method` member and a present, non-null `id` classifies as a request; one
with `method` and an absent-or-null `id` as a notification (in particular
the null-id `session/update` payload decodes to a notification, not a
response); one without `method` but with a non-null `id`, a `result`, or an
`error` member as a response; anything else fails with the
unrecognized-message error. -/
theorem classification_four_step :
    (∀ members : List (String × Json),
      ((∃ v, jlookup members "method" = some v) ∧
          (∃ v, jlookup members "id" = some v ∧ v.isNull = false) →
        classifyObj members = some .request) ∧
      ((∃ v, jlookup members "method" = some v) ∧
          (jlookup members "id" = none ∨ jlookup members "id" = some .null) →
        classifyObj members = some .notification) ∧
      (jlookup members "method" = none ∧
          ((∃ v, jlookup members "id" = some v ∧ v.isNull = false) ∨
            (∃ v, jlookup members "result" = some v) ∨
            (∃ v, jlookup members "error" = some v)) →
        classifyObj members = some .response) ∧
      (jlookup members "method" = none ∧
          (jlookup members "id" = none ∨ jlookup members "id" = some .null) ∧
          jlookup members "result" = none ∧ jlookup members "error" = none →
        classifyObj members = none ∧
          decodeMessage (.obj members) = .error "Cannot determine JSON-RPC message type")) ∧
    decodeMessage ambigNotifJson =
      .ok (.Notification ⟨"2.0", "session/update", some ambigParams⟩) := by
  refine ⟨fun members => ⟨?_, ?_, ?_, ?_⟩, rfl⟩
  · rintro ⟨⟨v, hm⟩, ⟨w, hi, hw⟩⟩
    simp [classifyObj, hasMethodField, hasNonNullId, jhasKey, hm, hi, hw]
  · rintro ⟨⟨v, hm⟩, hi | hi⟩ <;>
      simp [classifyObj, hasMethodField, hasNonNullId, jhasKey, hm, hi, Json.isNull]
  · rintro ⟨hm, ⟨w, hi, hw⟩ | ⟨w, hr⟩ | ⟨w, he⟩⟩ <;>
      simp [classifyObj, hasMethodField, hasNonNullId, jhasKey, hm, *]
  · rintro ⟨hm, hi | hi, hr, he⟩ <;>
      simp [classifyObj, decodeMessage, hasMethodField, hasNonNullId, jhasKey,
        hm, hi, hr, he, Json.isNull]

/-- Witness for C1 at a concrete object with both `method` and a non-null
`id`. -/
theorem classification_four_step_w :
    classifyObj [("method", Json.str "m"), ("id", Json.num 1)] = some .request :=
  (classification_four_step.1 _).1 ⟨⟨_, rfl⟩, ⟨_, rfl, rfl⟩⟩

/-- C2 counterexample: the derived serializer of the `JsonRpcMessage` enum
itself is externally tagged, so encoding any message model value through it
and decoding through the classifier fails — here a plain notification;
the claimed round-trip does not hold as stated. -/
theorem enum_encoding_never_roundtrips :
    decodeMessage (encodeMessage (.Notification c2notif)) =
      .error "Cannot determine JSON-RPC message type" := rfl

/-- C2 amended: the wire encoding the code actually writes (each variant's
payload struct serialized directly) round-trips through the classifying
deserializer with the variant and every field preserved, provided optional
`Value` fields are not explicit JSON nulls and a response carries a
non-null id, a result, or an error. -/
theorem wire_roundtrip (m : JsonRpcMessage) (h : wireRoundTrippable m = true) :
    decodeMessage (encodeWire m) = .ok m := by
  cases m with
  | Request r =>
    obtain ⟨j, i, mth, p⟩ := r
    rcases p with _ | v
    · rfl
    · cases v <;> first | rfl | simp [wireRoundTrippable] at h
  | Notification n =>
    obtain ⟨j, mth, p⟩ := n
    rcases p with _ | v
    · rfl
    · cases v <;> first | rfl | simp [wireRoundTrippable] at h
  | Response r =>
    obtain ⟨j, i, res, err⟩ := r
    rcases err with _ | ⟨c, msg, d⟩
    · rcases i with _ | i <;> rcases res with _ | v
      · simp [wireRoundTrippable] at h
      · cases v <;> first | rfl | simp [wireRoundTrippable] at h
      · rfl
      · cases v <;> first | rfl | simp [wireRoundTrippable] at h
    · rcases d with _ | d
      · rcases i with _ | i <;> rcases res with _ | v
        · rfl
        · cases v <;> first | rfl | simp [wireRoundTrippable] at h
        · rfl
        · cases v <;> first | rfl | simp [wireRoundTrippable] at h
      · rcases i with _ | i <;> rcases res with _ | v
        · cases d <;> first | rfl | simp [wireRoundTrippable] at h
        · cases d <;> cases v <;> first | rfl | simp [wireRoundTrippable] at h
        · cases d <;> first | rfl | simp [wireRoundTrippable] at h
        · cases d <;> cases v <;> first | rfl | simp [wireRoundTrippable] at h

/-- Witness for C2 amended at a concrete request. -/
theorem wire_roundtrip_w :
    wireRoundTrippable c2req = true ∧ decodeMessage (encodeWire c2req) = .ok c2req :=
  ⟨rfl, wire_roundtrip c2req rfl⟩

/-- C3: the update interpreter yields a pending input iff the typed update
is a tool call (or tool-call update) with status `Pending`; in that case it
yields exactly one pending input and exactly two host-facing updates, the
synthetic `pending_input` one followed by the tool call's own update; any
other status yields no pending input and a single update. -/
theorem typed_update_pending_production (aid : String) (update : SessionUpdate)
    (cf : Option String) (ts : Nat) :
    ((process_typed_session_update aid update cf ts).pendingInputs ≠ [] ↔
        (∃ tc, update = .ToolCall tc ∧ tc.status = .Pending) ∨
        (∃ tcu, update = .ToolCallUpdate tcu ∧ tcu.status = some .Pending)) ∧
    (update.needs_user_input = true →
        (process_typed_session_update aid update cf ts).pendingInputs.length = 1 ∧
        (process_typed_session_update aid update cf ts).updates.map
          (fun u => u.updateType) = ["pending_input", typedUpdateTypeName update]) ∧
    (update.needs_user_input = false →
        (process_typed_session_update aid update cf ts).pendingInputs = [] ∧
        (process_typed_session_update aid update cf ts).updates.length = 1) := by
  cases update with
  | ToolCall tc =>
    cases h : tc.status <;>
      simp [process_typed_session_update, create_pending_tool_call,
        pendingToolCallFields, SessionUpdate.needs_user_input,
        typedUpdateTypeName, h]
  | ToolCallUpdate tcu =>
    rcases h : tcu.status with _ | s
    · simp [process_typed_session_update, create_pending_tool_call,
        pendingToolCallFields, SessionUpdate.needs_user_input,
        typedUpdateTypeName, h]
    · cases s <;>
        simp [process_typed_session_update, create_pending_tool_call,
          pendingToolCallFields, SessionUpdate.needs_user_input,
          typedUpdateTypeName, h]
  | UserMessageChunk c =>
    simp [process_typed_session_update, create_pending_tool_call,
      pendingToolCallFields, SessionUpdate.needs_user_input, typedUpdateTypeName]
  | AgentMessageChunk c =>
    simp [process_typed_session_update, create_pending_tool_call,
      pendingToolCallFields, SessionUpdate.needs_user_input, typedUpdateTypeName]
  | AgentThoughtChunk c =>
    simp [process_typed_session_update, create_pending_tool_call,
      pendingToolCallFields, SessionUpdate.needs_user_input, typedUpdateTypeName]
  | Plan p =>
    simp [process_typed_session_update, create_pending_tool_call,
      pendingToolCallFields, SessionUpdate.needs_user_input, typedUpdateTypeName]
  | AvailableCommandsUpdate u =>
    simp [process_typed_session_update, create_pending_tool_call,
      pendingToolCallFields, SessionUpdate.needs_user_input, typedUpdateTypeName]
  | CurrentModeUpdate u =>
    simp [process_typed_session_update, create_pending_tool_call,
      pendingToolCallFields, SessionUpdate.needs_user_input, typedUpdateTypeName]

/-- Witness for C3 at a concrete pending tool call. -/
theorem typed_update_pending_production_w :
    (process_typed_session_update "A" c3update none 5).pendingInputs.length = 1 ∧
    (process_typed_session_update "A" c3update none 5).updates.map
      (fun u => u.updateType) = ["pending_input", typedUpdateTypeName c3update] :=
  (typed_update_pending_production "A" c3update none 5).2.1 (by decide)

/-- C4: the permission decision selection — approval takes the
caller-specified option id, else the first Allow-kind option's id, else the
first option's id; denial takes the first Reject-kind option's id, else
cancellation; the read loop writes exactly the response built from this
selection; and on the two-option scenario approval selects `a`, denial
selects `b`. -/
theorem permission_decision_selection :
    (∀ (options : List PermissionOption) (oid : String),
        selectPermissionResponse options true (some oid) =
          RequestPermissionResponse.selected oid) ∧
    (∀ (options : List PermissionOption) (o : PermissionOption),
        options.find? isAllowOption = some o →
        selectPermissionResponse options true none =
          RequestPermissionResponse.selected o.optionId) ∧
    (∀ (options : List PermissionOption) (o : PermissionOption)
        (tl : List PermissionOption), options.find? isAllowOption = none →
        options = o :: tl →
        selectPermissionResponse options true none =
          RequestPermissionResponse.selected o.optionId) ∧
    (∀ (options : List PermissionOption) (o : PermissionOption)
        (oid : Option String), options.find? isRejectOption = some o →
        selectPermissionResponse options false oid =
          RequestPermissionResponse.selected o.optionId) ∧
    (∀ (options : List PermissionOption) (oid : Option String),
        options.find? isRejectOption = none →
        selectPermissionResponse options false oid =
          RequestPermissionResponse.cancelled) ∧
    (∀ (aid : String) (ts : Nat) (st : AgentState) (w : List Json)
        (u : List AgentUpdate) (sk : List String) (req : JsonRpcRequest) (p : Json)
        (request : RequestPermissionRequest) (d : PermissionUserResponse)
        (rest : List (Option PermissionUserResponse)),
        req.method = "session/request_permission" → req.params = some p →
        parseRequestPermission p = .ok request →
        (stepReq aid ts st w u sk req (some d :: rest)).written =
          w ++ [encodeResponse (JsonRpcResponse.success req.id
            (encodePermissionResponse (selectPermissionResponse request.options
              d.approved d.optionId)))]) ∧
    (selectPermissionResponse c4opts true none = RequestPermissionResponse.selected "a" ∧
      selectPermissionResponse c4opts false none = RequestPermissionResponse.selected "b") := by
  refine ⟨?_, ?_, ?_, ?_, ?_, ?_, by decide, by decide⟩
  · intro options oid; rfl
  · intro options o h; simp [selectPermissionResponse, h]
  · intro options o tl h he; subst he; simp [selectPermissionResponse, h]
  · intro options o oid h; simp [selectPermissionResponse, h]
  · intro options oid h; simp [selectPermissionResponse, h]
  · intro aid ts st w u sk req p request d rest hm hp hr
    simp [stepReq, hm, hp, hr]

/-- Witness for C4 at a concrete caller-specified option id. -/
theorem permission_decision_selection_w :
    selectPermissionResponse c4opts true (some "x") =
      RequestPermissionResponse.selected "x" :=
  permission_decision_selection.1 c4opts "x"

/-- C5 counterexample: an approved decision carrying an option id that is
not in the offered list is written back verbatim — the response is neither
an offered option nor a cancellation, so the claim fails as stated. -/
theorem out_of_list_option_written :
    selectPermissionResponse c5opts true (some "zzz") =
      RequestPermissionResponse.selected "zzz" ∧
    ("zzz" ∈ c5opts.map (fun o => o.optionId) → False) ∧
    selectPermissionResponse c5opts true (some "zzz") ≠
      RequestPermissionResponse.cancelled := by decide

/-- C5 amended: provided an approved decision's explicit option id is drawn
from the offered list and the list is non-empty when no explicit id is
given, the selected id always appears in the option list; the response
signals cancellation exactly when the decision was a denial and the list
contains no Reject-kind option. -/
theorem permission_selection_within_options (options : List PermissionOption)
    (approved : Bool) (optionId : Option String)
    (hin : approved = true → ∀ x, optionId = some x →
      x ∈ options.map (fun o => o.optionId))
    (hne : approved = true → optionId = none → options ≠ []) :
    ((∃ i, selectPermissionResponse options approved optionId =
        RequestPermissionResponse.selected i ∧ i ∈ options.map (fun o => o.optionId)) ∨
      (selectPermissionResponse options approved optionId =
        RequestPermissionResponse.cancelled ∧ approved = false ∧
        options.find? isRejectOption = none)) ∧
    (selectPermissionResponse options approved optionId =
        RequestPermissionResponse.cancelled ↔
      approved = false ∧ options.find? isRejectOption = none) := by
  cases approved with
  | false =>
    cases hfind : options.find? isRejectOption with
    | some r =>
      have hr : r ∈ options := List.mem_of_find?_eq_some hfind
      constructor
      · left
        exact ⟨r.optionId, by simp [selectPermissionResponse, hfind],
          List.mem_map.mpr ⟨r, hr, rfl⟩⟩
      · simp [selectPermissionResponse, hfind, RequestPermissionResponse.selected,
          RequestPermissionResponse.cancelled]
    | none =>
      constructor
      · right
        exact ⟨by simp [selectPermissionResponse, hfind], rfl, rfl⟩
      · simp [selectPermissionResponse, hfind]
  | true =>
    have hsel : ∃ i, selectPermissionResponse options true optionId =
        RequestPermissionResponse.selected i ∧ i ∈ options.map (fun o => o.optionId) := by
      cases hoid : optionId with
      | some x =>
        exact ⟨x, by simp [selectPermissionResponse], hin rfl x hoid⟩
      | none =>
        cases hallow : options.find? isAllowOption with
        | some o =>
          exact ⟨o.optionId, by simp [selectPermissionResponse, hallow],
            List.mem_map.mpr ⟨o, List.mem_of_find?_eq_some hallow, rfl⟩⟩
        | none =>
          cases hopts : options with
          | nil => exact absurd hopts (hne rfl hoid)
          | cons o tl =>
            subst hopts
            refine ⟨o.optionId, by simp [selectPermissionResponse, hallow], ?_⟩
            exact List.mem_map.mpr ⟨o, by simp, rfl⟩
    obtain ⟨i, hi, hmem⟩ := hsel
    refine ⟨Or.inl ⟨i, hi, hmem⟩, ?_⟩
    rw [hi]
    simp [RequestPermissionResponse.selected, RequestPermissionResponse.cancelled]

/-- Witness for C5 amended: with no caller id and a non-empty list, the
selection lands inside the list. -/
theorem permission_selection_within_options_w :
    ∃ i, selectPermissionResponse c5opts true none =
      RequestPermissionResponse.selected i ∧
      i ∈ c5opts.map (fun o => o.optionId) := by
  have h := permission_selection_within_options c5opts true none
    (fun _ x hx => by simp at hx) (fun _ _ => by decide)
  rcases h.1 with ⟨i, hi, hm⟩ | ⟨hc, hfalse, _⟩
  · exact ⟨i, hi, hm⟩
  · cases hfalse

/-! Helper lemmas for the read-loop theorems. -/

/-- The text accumulated by a typed update step is determined by the update
alone. -/
theorem processTypedUpdate_acc (aid : String) (ts : Nat) (st : AgentState)
    (acc : String) (u : List AgentUpdate) (upd : SessionUpdate) :
    (processTypedUpdate aid ts st acc u upd).2.1 =
      match upd.get_text with
      | some t => acc ++ t
      | none => acc := rfl

/-- The text accumulated by a legacy update step is determined by the
update alone. -/
theorem processLegacyUpdate_acc (aid : String) (ts : Nat) (st : AgentState)
    (acc : String) (u : List AgentUpdate) (l : LegacySessionUpdateNotification) :
    (processLegacyUpdate aid ts st acc u l).2.1 =
      match l.update.content.bind (fun c => c.text) with
      | some t => acc ++ t
      | none => acc := rfl

/-- The text accumulated by `handle_session_update` depends only on the
payload and the dialect that parses it. -/
theorem handleSessionUpdate_acc (aid : String) (ts : Nat) (st : AgentState)
    (acc : String) (u : List AgentUpdate) (params : Json) :
    (handleSessionUpdate aid ts st acc u params).2.1 =
      match parseSessionUpdateNotification params with
      | .ok n =>
        (match n.update.get_text with
         | some t => acc ++ t
         | none => acc)
      | .error _ =>
        match parseLegacyNotification params with
        | .ok l =>
          (match l.update.content.bind (fun c => c.text) with
           | some t => acc ++ t
           | none => acc)
        | .error _ => acc := by
  unfold handleSessionUpdate
  split
  · exact processTypedUpdate_acc ..
  · split
    · exact processLegacyUpdate_acc ..
    · rfl

/-- A notification step accumulates the same text from any starting state
and update list. -/
theorem stepNotif_acc_eq (aid : String) (ts : Nat) (st st' : AgentState)
    (acc : String) (u u' : List AgentUpdate) (n : JsonRpcNotification) :
    (stepNotif aid ts st acc u n).2.1 = (stepNotif aid ts st' acc u' n).2.1 := by
  unfold stepNotif
  by_cases hm : n.method = "session/update"
  · cases hp : n.params with
    | none => simp [hm, hp]
    | some params =>
      simp only [hm, hp, if_true]
      rw [handleSessionUpdate_acc, handleSessionUpdate_acc]
  · simp [hm]

/-- The verdict and remaining decisions of a request step are determined by
the request and the decisions alone. -/
theorem stepReq_irrel (aid : String) (ts : Nat) (st st' : AgentState)
    (w w' : List Json) (u u' : List AgentUpdate) (sk sk' : List String)
    (req : JsonRpcRequest) (ds : List (Option PermissionUserResponse)) :
    (stepReq aid ts st w u sk req ds).res = (stepReq aid ts st' w' u' sk' req ds).res ∧
    (stepReq aid ts st w u sk req ds).decisions =
      (stepReq aid ts st' w' u' sk' req ds).decisions := by
  by_cases hm : req.method = "session/request_permission"
  · cases hp : req.params with
    | none => simp [stepReq, hm, hp]
    | some params =>
      cases hr : parseRequestPermission params with
      | error e => simp [stepReq, hm, hp, hr]
      | ok request =>
        cases ds with
        | nil => simp [stepReq, hm, hp, hr]
        | cons d rest =>
          cases d with
          | none => simp [stepReq, hm, hp, hr]
          | some dec => simp [stepReq, hm, hp, hr]
  · simp [stepReq, hm]

/-- A failing request step always fails with a `CommunicationError`. -/
theorem stepReq_res_comm (aid : String) (ts : Nat) (st : AgentState)
    (w : List Json) (u : List AgentUpdate) (sk : List String)
    (req : JsonRpcRequest) (ds : List (Option PermissionUserResponse))
    (e : AgentProcessError) (h : (stepReq aid ts st w u sk req ds).res = some e) :
    ∃ s, e = .CommunicationError s := by
  by_cases hm : req.method = "session/request_permission"
  · cases hp : req.params with
    | none => simp [stepReq, hm, hp] at h
    | some params =>
      cases hr : parseRequestPermission params with
      | error msg =>
        simp [stepReq, hm, hp, hr] at h
        exact ⟨_, h.symm⟩
      | ok request =>
        cases ds with
        | nil =>
          simp [stepReq, hm, hp, hr] at h
          exact ⟨_, h.symm⟩
        | cons d rest =>
          cases d with
          | none =>
            simp [stepReq, hm, hp, hr] at h
            exact ⟨_, h.symm⟩
          | some dec => simp [stepReq, hm, hp, hr] at h
  · simp [stepReq, hm] at h

/-- The outcome of the read loop depends only on the accumulated text, the
events and the decisions — never on the agent state or the write/update
accumulators. -/
theorem promptLoop_outcome_irrel (evs : List ReadEvent) :
    ∀ (ds : List (Option PermissionUserResponse)) (aid : String) (ts : Nat)
      (st st' : AgentState) (acc : String) (w w' : List Json)
      (u u' : List AgentUpdate) (sk sk' : List String),
    (promptLoop aid ts st acc w u sk evs ds).outcome =
      (promptLoop aid ts st' acc w' u' sk' evs ds).outcome := by
  induction evs with
  | nil => intro ds aid ts st st' acc w w' u u' sk sk'; rfl
  | cons ev rest ih =>
    intro ds aid ts st st' acc w w' u u' sk sk'
    cases ev with
    | empty => exact ih ds aid ts st st' acc w w' u u' sk sk'
    | readErr e => rfl
    | msg m =>
      cases m with
      | Notification n =>
        simp only [promptLoop]
        rw [stepNotif_acc_eq aid ts st st' acc u u' n]
        exact ih ds aid ts _ _ _ w w' _ _ sk sk'
      | Response resp =>
        cases he : resp.error with
        | some e => simp [promptLoop, he]
        | none =>
          cases hr : resp.result with
          | some v => simp [promptLoop, he, hr]
          | none =>
            simp only [promptLoop, he, hr]
            exact ih ds aid ts st st' acc w w' u u' sk sk'
      | Request req =>
        obtain ⟨hres, hds⟩ := stepReq_irrel aid ts st st' w w' u u' sk sk' req ds
        simp only [promptLoop]
        cases hout : (stepReq aid ts st w u sk req ds).res with
        | some e =>
          rw [hout] at hres
          simp [← hres]
        | none =>
          rw [hout] at hres
          simp only [← hres, hds]
          exact ih _ aid ts _ _ acc _ _ _ _ _ _

/-- A notification that is unrecognized or fails both dialects leaves the
accumulated text untouched. -/
theorem stepNotif_acc_unparsed (aid : String) (ts : Nat) (st : AgentState)
    (acc : String) (u : List AgentUpdate) (n : JsonRpcNotification)
    (h : n.method ≠ "session/update" ∨ n.params = none ∨
      (∃ p, n.params = some p ∧ (parseSessionUpdateNotification p).isOk = false ∧
        (parseLegacyNotification p).isOk = false)) :
    (stepNotif aid ts st acc u n).2.1 = acc := by
  rcases h with hm | hp | ⟨p, hp, ht, hl⟩
  · simp [stepNotif, hm]
  · by_cases hm : n.method = "session/update" <;> simp [stepNotif, hm, hp]
  · by_cases hm : n.method = "session/update"
    · simp only [stepNotif, hm, if_true, hp]
      rw [handleSessionUpdate_acc]
      cases hpt : parseSessionUpdateNotification p with
      | ok v => rw [hpt] at ht; simp [Except.isOk, Except.toBool] at ht
      | error e1 =>
        cases hpl : parseLegacyNotification p with
        | ok v => rw [hpl] at hl; simp [Except.isOk, Except.toBool] at hl
        | error e2 => rfl
    · simp [stepNotif, hm]

/-- A `PromptFailed` outcome of the loop can only originate from a response
event carrying an error with that message. -/
theorem promptFailed_only_from_error_response (evs : List ReadEvent) :
    ∀ (ds : List (Option PermissionUserResponse)) (aid : String) (ts : Nat)
      (st : AgentState) (acc : String) (w : List Json) (u : List AgentUpdate)
      (sk : List String) (m : String),
    (promptLoop aid ts st acc w u sk evs ds).outcome = .fail (.PromptFailed m) →
    ∃ r e, ReadEvent.msg (.Response r) ∈ evs ∧ r.error = some e ∧ e.message = m := by
  induction evs with
  | nil =>
    intro ds aid ts st acc w u sk m h
    simp [promptLoop] at h
  | cons ev rest ih =>
    intro ds aid ts st acc w u sk m h
    cases ev with
    | empty =>
      obtain ⟨r, e, hmem, he, hm⟩ := ih ds aid ts st acc w u sk m h
      exact ⟨r, e, List.mem_cons_of_mem _ hmem, he, hm⟩
    | readErr e => simp [promptLoop] at h
    | msg msg =>
      cases msg with
      | Notification n =>
        simp only [promptLoop] at h
        obtain ⟨r, e, hmem, he, hm⟩ := ih ds aid ts _ _ w _ sk m h
        exact ⟨r, e, List.mem_cons_of_mem _ hmem, he, hm⟩
      | Response resp =>
        cases he : resp.error with
        | some e =>
          simp only [promptLoop, he] at h
          refine ⟨resp, e, List.mem_cons_self _ _, he, ?_⟩
          cases h with
          | refl => rfl
        | none =>
          cases hr : resp.result with
          | some v => simp [promptLoop, he, hr] at h
          | none =>
            simp only [promptLoop, he, hr] at h
            obtain ⟨r, e, hmem, he2, hm⟩ := ih ds aid ts st acc w u sk m h
            exact ⟨r, e, List.mem_cons_of_mem _ hmem, he2, hm⟩
      | Request req =>
        simp only [promptLoop] at h
        cases hout : (stepReq aid ts st w u sk req ds).res with
        | some e =>
          rw [hout] at h
          simp only [] at h
          obtain ⟨s, hs⟩ := stepReq_res_comm aid ts st w u sk req ds e hout
          subst hs
          simp at h
        | none =>
          rw [hout] at h
          simp only [] at h
          obtain ⟨r, e, hmem, he2, hm⟩ := ih _ aid ts _ acc _ _ _ m h
          exact ⟨r, e, List.mem_cons_of_mem _ hmem, he2, hm⟩

/-- A request step only ever appends to the written stream. -/
theorem stepReq_written_extends (aid : String) (ts : Nat) (st : AgentState)
    (w : List Json) (u : List AgentUpdate) (sk : List String)
    (req : JsonRpcRequest) (ds : List (Option PermissionUserResponse)) :
    ∃ tail, (stepReq aid ts st w u sk req ds).written = w ++ tail := by
  by_cases hm : req.method = "session/request_permission"
  · cases hp : req.params with
    | none => exact ⟨[], by simp [stepReq, hm, hp]⟩
    | some params =>
      cases hr : parseRequestPermission params with
      | error e => exact ⟨[], by simp [stepReq, hm, hp, hr]⟩
      | ok request =>
        cases ds with
        | nil => exact ⟨[], by simp [stepReq, hm, hp, hr]⟩
        | cons d rest =>
          cases d with
          | none => exact ⟨[], by simp [stepReq, hm, hp, hr]⟩
          | some dec =>
            exact ⟨[encodeResponse (JsonRpcResponse.success req.id
              (encodePermissionResponse (selectPermissionResponse request.options
                dec.approved dec.optionId)))], by simp [stepReq, hm, hp, hr]⟩
  · exact ⟨[encodeResponse (JsonRpcResponse.errorResponse req.id (-32601)
      ("Method not found: " ++ req.method))], by simp [stepReq, hm]⟩

/-- The read loop only ever appends to the written stream. -/
theorem promptLoop_written_extends (evs : List ReadEvent) :
    ∀ (ds : List (Option PermissionUserResponse)) (aid : String) (ts : Nat)
      (st : AgentState) (acc : String) (w : List Json) (u : List AgentUpdate)
      (sk : List String),
    ∃ tail, (promptLoop aid ts st acc w u sk evs ds).written = w ++ tail := by
  induction evs with
  | nil => intro ds aid ts st acc w u sk; exact ⟨[], by simp [promptLoop]⟩
  | cons ev rest ih =>
    intro ds aid ts st acc w u sk
    cases ev with
    | empty => exact ih ds aid ts st acc w u sk
    | readErr e => exact ⟨[], by simp [promptLoop]⟩
    | msg m =>
      cases m with
      | Notification n =>
        simp only [promptLoop]
        exact ih ds aid ts _ _ w _ sk
      | Response resp =>
        cases he : resp.error with
        | some e => exact ⟨[], by simp [promptLoop, he]⟩
        | none =>
          cases hr : resp.result with
          | some v => exact ⟨[], by simp [promptLoop, he, hr]⟩
          | none =>
            simp only [promptLoop, he, hr]
            exact ih ds aid ts st acc w u sk
      | Request req =>
        simp only [promptLoop]
        obtain ⟨t1, ht1⟩ := stepReq_written_extends aid ts st w u sk req ds
        cases hout : (stepReq aid ts st w u sk req ds).res with
        | some e => exact ⟨t1, by simp [hout, ht1]⟩
        | none =>
          simp only [hout]
          obtain ⟨t2, ht2⟩ := ih _ aid ts _ acc _ _ _
          exact ⟨t1 ++ t2, by rw [ht2, ht1, List.append_assoc]⟩

/-- C6: during the prompt read loop, the only event that aborts the prompt
with the protocol-level failure (`PromptFailed`, the §7 taxonomy's
error-response failure) is a response carrying an `error`: skipping any
unrecognized or dialect-unparseable notification leaves the loop's outcome
exactly that of the remaining stream, an error response aborts on the spot
with `PromptFailed` and the `Error` status, and every `PromptFailed`
outcome traces back to an error-carrying response event.  (Transport-level
`CommunicationError` aborts — read failures, malformed permission
requests, dropped decision channels — are outside this claim's
protocol-level failure.) -/
theorem prompt_loop_error_discipline :
    (∀ (aid : String) (ts : Nat) (st : AgentState) (acc : String) (w : List Json)
        (u : List AgentUpdate) (sk : List String) (n : JsonRpcNotification)
        (rest : List ReadEvent) (ds : List (Option PermissionUserResponse)),
      (n.method ≠ "session/update" ∨ n.params = none ∨
        (∃ p, n.params = some p ∧ (parseSessionUpdateNotification p).isOk = false ∧
          (parseLegacyNotification p).isOk = false)) →
      (promptLoop aid ts st acc w u sk (.msg (.Notification n) :: rest) ds).outcome =
        (promptLoop aid ts st acc w u sk rest ds).outcome) ∧
    (∀ (aid : String) (ts : Nat) (st : AgentState) (acc : String) (w : List Json)
        (u : List AgentUpdate) (sk : List String) (resp : JsonRpcResponse)
        (e : JsonRpcError) (rest : List ReadEvent)
        (ds : List (Option PermissionUserResponse)), resp.error = some e →
      promptLoop aid ts st acc w u sk (.msg (.Response resp) :: rest) ds =
        ⟨.fail (.PromptFailed e.message), { st with status := .Error }, w, u, sk⟩) ∧
    (∀ (aid : String) (ts : Nat) (st : AgentState) (acc : String) (w : List Json)
        (u : List AgentUpdate) (sk : List String) (evs : List ReadEvent)
        (ds : List (Option PermissionUserResponse)) (m : String),
      (promptLoop aid ts st acc w u sk evs ds).outcome = .fail (.PromptFailed m) →
      ∃ r e, ReadEvent.msg (.Response r) ∈ evs ∧ r.error = some e ∧ e.message = m) := by
  refine ⟨?_, ?_, ?_⟩
  · intro aid ts st acc w u sk n rest ds h
    simp only [promptLoop]
    rw [stepNotif_acc_unparsed aid ts st acc u n h]
    exact promptLoop_outcome_irrel rest ds aid ts _ st acc w w _ u _ sk
  · intro aid ts st acc w u sk resp e rest ds he
    simp [promptLoop, he]
  · intro aid ts st acc w u sk evs ds m h
    exact promptFailed_only_from_error_response evs ds aid ts st acc w u sk m h

/-- Witness for C6: a concrete error response aborts the loop. -/
theorem prompt_loop_error_discipline_w :
    promptLoop "A" 0 st0 "" [] [] []
        [.msg (.Response ⟨"2.0", some 1, none, some ⟨-1, "boom", none⟩⟩)] [] =
      ⟨.fail (.PromptFailed "boom"), { st0 with status := .Error }, [], [], []⟩ :=
  prompt_loop_error_discipline.2.1 "A" 0 st0 "" [] [] []
    ⟨"2.0", some 1, none, some ⟨-1, "boom", none⟩⟩ ⟨-1, "boom", none⟩ [] [] rfl

/-- C7 counterexample: an agent that holds a session id but is in the
`Error` status (not `Idle`) is not rejected with `NoSession` — the
prompt proceeds, moving to `Working` with progress 0, so the claimed
Idle-status precondition is not checked by the code. -/
theorem send_prompt_skips_idle_check :
    (sendPrompt "A" 0 stErrC7 "hi" [] []).outcome ≠ .fail .NoSession ∧
    (sendPrompt "A" 0 stErrC7 "hi" [] []).st.status = .Working ∧
    (sendPrompt "A" 0 stErrC7 "hi" [] []).st.progress = 0 := by decide

/-- C7 amended: `send_prompt` requires only a session id — without one it
fails with `NoSession`, leaving the state (status, progress, session id)
unchanged and writing nothing; with one (whatever the status) it moves to
`Working` with progress 0 and the `session/prompt` request is the first
message written. -/
theorem send_prompt_session_precondition :
    (∀ (aid : String) (ts : Nat) (st : AgentState) (prompt : String)
        (evs : List ReadEvent) (ds : List (Option PermissionUserResponse)),
      st.sessionId = none →
        sendPrompt aid ts st prompt evs ds = ⟨.fail .NoSession, st, [], [], []⟩) ∧
    (∀ (aid : String) (ts : Nat) (st : AgentState) (prompt : String)
        (ds : List (Option PermissionUserResponse)) (sid : String),
      st.sessionId = some sid →
        (sendPrompt aid ts st prompt [] ds).st.status = .Working ∧
        (sendPrompt aid ts st prompt [] ds).st.progress = 0 ∧
        (sendPrompt aid ts st prompt [] ds).written =
          [encodeRequest ⟨"2.0", st.requestId, "session/prompt",
            some (encodeSessionPromptParams ⟨sid, [PromptContent.ofText prompt]⟩)⟩]) ∧
    (∀ (aid : String) (ts : Nat) (st : AgentState) (prompt : String)
        (evs : List ReadEvent) (ds : List (Option PermissionUserResponse))
        (sid : String),
      st.sessionId = some sid →
        (sendPrompt aid ts st prompt evs ds).written.head? =
          some (encodeRequest ⟨"2.0", st.requestId, "session/prompt",
            some (encodeSessionPromptParams ⟨sid, [PromptContent.ofText prompt]⟩)⟩)) := by
  refine ⟨?_, ?_, ?_⟩
  · intro aid ts st prompt evs ds h
    simp [sendPrompt, h]
  · intro aid ts st prompt ds sid h
    refine ⟨?_, ?_, ?_⟩ <;> simp [sendPrompt, h, promptLoop]
  · intro aid ts st prompt evs ds sid h
    simp only [sendPrompt, h]
    obtain ⟨tail, ht⟩ := promptLoop_written_extends evs ds aid ts _ "" _ [] []
    rw [ht]
    simp

/-- Witness for C7 amended at a concrete session-less state. -/
theorem send_prompt_session_precondition_w :
    sendPrompt "A" 3 ⟨none, .Idle, none, 0, [], 1⟩ "hi" [] [] =
      ⟨.fail .NoSession, ⟨none, .Idle, none, 0, [], 1⟩, [], [], []⟩ :=
  send_prompt_session_precondition.1 "A" 3 ⟨none, .Idle, none, 0, [], 1⟩ "hi" [] [] rfl

/-- C8: a response carrying a `result` and no `error` terminates the loop —
whatever follows in the stream — returning the accumulated text with the
status set to `Idle` and progress 100; and on the happy-path scenario (one
`agent_message_chunk` notification with text `Hello` then the success
response) the prompt returns `Hello` with status `Idle` and progress
100. -/
theorem prompt_success_terminal :
    (∀ (aid : String) (ts : Nat) (st : AgentState) (acc : String) (w : List Json)
        (u : List AgentUpdate) (sk : List String) (resp : JsonRpcResponse) (v : Json)
        (rest : List ReadEvent) (ds : List (Option PermissionUserResponse)),
      resp.error = none → resp.result = some v →
        promptLoop aid ts st acc w u sk (.msg (.Response resp) :: rest) ds =
          ⟨.ok acc, { st with status := .Idle, progress := 100 }, w, u, sk⟩) ∧
    ((sendPrompt "A" 7 st0 "hi" happyEvents []).outcome = .ok "Hello" ∧
      (sendPrompt "A" 7 st0 "hi" happyEvents []).st.status = .Idle ∧
      (sendPrompt "A" 7 st0 "hi" happyEvents []).st.progress = 100) := by
  refine ⟨?_, by decide, by decide, by decide⟩
  intro aid ts st acc w u sk resp v rest ds he hr
  simp [promptLoop, he, hr]

/-- Witness for C8 at a concrete success response. -/
theorem prompt_success_terminal_w :
    promptLoop "A" 0 st0 "done" [] [] []
        [.msg (.Response ⟨"2.0", some 1, some .null, none⟩)] [] =
      ⟨.ok "done", { st0 with status := .Idle, progress := 100 }, [], [], []⟩ :=
  prompt_success_terminal.1 "A" 0 st0 "done" [] [] []
    ⟨"2.0", some 1, some .null, none⟩ .null [] [] rfl rfl

/-- C9 counterexample: a run of the read loop that records a pending tool
call and then receives the success response ends with one `PendingInput`
still recorded while the status is `Idle`, not `Paused` — the terminal
transition ignores remaining pending inputs, so the claimed invariant
fails on reachable states of the loop. -/
theorem prompt_completion_ignores_pending :
    (sendPrompt "A" 7 st0 "hi" c9events []).st.pendingInputs.length = 1 ∧
    (sendPrompt "A" 7 st0 "hi" c9events []).st.status = .Idle ∧
    (sendPrompt "A" 7 st0 "hi" c9events []).st.status ≠ .Paused := by decide

/-- C9 amended: the pending-input operations themselves preserve the
invariant — `add_pending_input` always leaves the agent `Paused`,
`clear_pending_input` preserves "non-empty pending implies `Paused`" and
lands on `Idle` exactly when no pending inputs remain, and a completed
permission exchange leaves no pending input with its id — but the read
loop's terminal transitions set `Idle`/`Error` regardless of remaining
`PendingInput` entries, so the invariant does not extend to all reachable
loop states. -/
theorem pending_paused_invariant :
    (∀ (st : AgentState) (p : PendingInput),
      (st.pendingInputs ≠ [] → st.status = .Paused) →
        ((addPendingInput st p).pendingInputs ≠ [] →
          (addPendingInput st p).status = .Paused)) ∧
    (∀ (st : AgentState) (iid : String),
      (st.pendingInputs ≠ [] → st.status = .Paused) →
        (((clearPendingInput st iid).pendingInputs ≠ [] →
            (clearPendingInput st iid).status = .Paused) ∧
          ((clearPendingInput st iid).status = .Idle ↔
            (clearPendingInput st iid).pendingInputs = []))) ∧
    (∀ (aid : String) (ts : Nat) (st : AgentState) (w : List Json)
        (u : List AgentUpdate) (sk : List String) (req : JsonRpcRequest) (p : Json)
        (request : RequestPermissionRequest) (d : PermissionUserResponse)
        (rest : List (Option PermissionUserResponse)),
      req.method = "session/request_permission" → req.params = some p →
      parseRequestPermission p = .ok request →
        (stepReq aid ts st w u sk req (some d :: rest)).res = none ∧
        (stepReq aid ts st w u sk req (some d :: rest)).st.pendingInputs.filter
          (fun i => i.id == "perm_req_" ++ toString req.id) = []) := by
  refine ⟨?_, ?_, ?_⟩
  · intro st p _ _
    simp [addPendingInput]
  · intro st iid hinv
    by_cases hrem : (st.pendingInputs.filter (fun i => i.id != iid)).isEmpty
    · constructor
      · intro hne
        exfalso
        apply hne
        simp only [clearPendingInput, hrem, if_true]
        exact List.isEmpty_iff.mp hrem
      · simp only [clearPendingInput, hrem, if_true]
        simp [List.isEmpty_iff.mp hrem]
    · have hne : st.pendingInputs.filter (fun i => i.id != iid) ≠ [] := by
        intro hzz
        rw [hzz] at hrem
        simp at hrem
      have hst : st.pendingInputs ≠ [] := by
        intro hz
        rw [hz] at hne
        simp at hne
      have hpaused := hinv hst
      constructor
      · intro _
        simp only [clearPendingInput, hrem, if_false]
        exact hpaused
      · simp only [clearPendingInput, hrem, if_false]
        rw [hpaused]
        simp [hne]
  · intro aid ts st w u sk req p request d rest hm hp hr
    constructor
    · simp [stepReq, hm, hp, hr]
    · simp only [stepReq, hm, hp, hr, if_true]
      simp only [clearPendingInput, addPendingInput]
      rw [List.filter_eq_nil_iff]
      intro x hx
      by_cases hsplit : (x.id != "perm_req_" ++ toString req.id) = true
      · simp only [bne_iff_ne, ne_eq] at hsplit
        simp [hsplit]
      · exfalso
        split at hx
        · have := (List.mem_filter.mp hx).2
          exact hsplit this
        · have := (List.mem_filter.mp hx).2
          exact hsplit this

/-- Witness for C9 amended: adding a pending input to the idle agent moves
it to `Paused`. -/
theorem pending_paused_invariant_w :
    (addPendingInput st0 ⟨"x", .ToolPermission, none, "m", 0⟩).pendingInputs ≠ [] ∧
    (addPendingInput st0 ⟨"x", .ToolPermission, none, "m", 0⟩).status = .Paused :=
  ⟨by decide, pending_paused_invariant.1 st0 ⟨"x", .ToolPermission, none, "m", 0⟩
    (by decide) (by decide)⟩

/-- C10: a pending-permission slot is consumed at most once — responding
to a registered key removes its entry before delivering the decision
(leaving every other key untouched), a second response with the same key
returns the `CommunicationError` and leaves the table as it was, and any
response for an unregistered key returns the `CommunicationError` with the
table unchanged. -/
theorem respond_consumes_entry_once (t : PendingPermissionsTable)
    (aid iid : String) (approved : Bool) (oid : Option String) :
    (∀ alive, t (permKey aid iid) = some alive →
        ((respond_to_permission t aid iid approved oid).2 (permKey aid iid) = none ∧
         (∀ k, k ≠ permKey aid iid →
            (respond_to_permission t aid iid approved oid).2 k = t k) ∧
         respond_to_permission ((respond_to_permission t aid iid approved oid).2)
            aid iid approved oid =
           (.error (.CommunicationError ("No pending permission with id: " ++ iid)),
            (respond_to_permission t aid iid approved oid).2))) ∧
    (t (permKey aid iid) = none →
        respond_to_permission t aid iid approved oid =
          (.error (.CommunicationError ("No pending permission with id: " ++ iid)), t)) := by
  constructor
  · intro alive h
    refine ⟨?_, ?_, ?_⟩
    · simp [respond_to_permission, PendingPermissions.respond, h]
    · intro k hk
      simp [respond_to_permission, PendingPermissions.respond, h, hk]
    · simp [respond_to_permission, PendingPermissions.respond, h]
  · intro h
    simp [respond_to_permission, PendingPermissions.respond, h]

/-- Witness for C10 at a concrete one-entry table. -/
theorem respond_consumes_entry_once_w :
    (respond_to_permission c10table "A" "in1" true none).2 (permKey "A" "in1") = none :=
  ((respond_consumes_entry_once c10table "A" "in1" true none).1 true (by decide)).1

end Acptorio
